import Mathlib

/-!
Shallow embedding of the music scheduler in `src/schedule.js` (vuoro/pelimanni),
together with the parts of `src/instruments.js` the scheduler observes
(instance sets, `willPlayUntil`, instance creation and destruction).

Modelling conventions:
* JavaScript numbers are modelled as exact rationals (`ℚ`).
* The `Playable` tree mirrors the JS values accepted by `schedulePart`:
  numbers, `null`, `undefined`, non-array option objects, arrays, and a
  catch-all for other JS values which the walker silently skips.
* The side effects of `playInstance` (firing oscillators) are out of scope;
  the scheduler only observes the `willPlayUntil` / `previousPitch` fields it
  leaves behind, so those are abstracted into a `SynthCtx` of functions, and
  every dispatched note is recorded in an observable `placements` log.
* Instrument presets are opaque keys, modelled as `Nat`; instance object
  identity is modelled with a fresh-id counter.
* `Except String` models a thrown exception propagating to the caller.
-/

/-- Option record fields recognised by the option-merging loop in
`schedulePart` (`src/schedule.js` lines 209-225). `none` models a field that
is absent/`undefined`. -/
structure PlayableOptions where
  velocity : Option ℚ := none
  volume : Option ℚ := none
  vibrato : Option ℚ := none
  vibratoFrequency : Option ℚ := none
  transpose : Option ℚ := none
  root : Option ℚ := none
  alternate : Bool := false
  chord : Bool := false
deriving DecidableEq

/-- The recursive `Playable` value walked by `schedulePart`:
a number, `null` (rest), `undefined` (extend), a non-array option object,
an array, or any other JS value (skipped by the walker). -/
inductive Playable where
  | num (value : ℚ)
  | rest
  | undef
  | options (o : PlayableOptions)
  | seq (children : List Playable)
  | unknown

/-- Whether an array element is an option record (a non-array object, the
condition of `src/schedule.js` line 212). -/
def isOptionRecord : Playable → Bool
  | .options _ => true
  | _ => false

/-- Result of the option-merging loop of `schedulePart`
(`src/schedule.js` lines 198-227). -/
structure MergedOptions where
  amountOfOptions : Nat
  alternate : Bool
  chord : Bool
  velocity : Option ℚ
  volume : Option ℚ
  vibrato : Option ℚ
  vibratoFrequency : Option ℚ
  transpose : Option ℚ
  root : Option ℚ
deriving DecidableEq

/-- JS `child ?? parent` on possibly-absent numbers. -/
def mergeParam (child parent : Option ℚ) : Option ℚ :=
  match child with
  | some v => some v
  | none => parent

/-- One step of the option-merging loop of `schedulePart`
(`src/schedule.js` lines 209-225): an option record overrides the
accumulated values field by field and is counted; every other element is
left for the walk itself. -/
def mergeOptionsStep (acc : MergedOptions) (child : Playable) : MergedOptions :=
  match child with
  | .options o =>
      { amountOfOptions := acc.amountOfOptions + 1
        alternate := acc.alternate || o.alternate
        chord := acc.chord || o.chord
        velocity := mergeParam o.velocity acc.velocity
        volume := mergeParam o.volume acc.volume
        vibrato := mergeParam o.vibrato acc.vibrato
        vibratoFrequency := mergeParam o.vibratoFrequency acc.vibratoFrequency
        transpose := mergeParam o.transpose acc.transpose
        root := mergeParam o.root acc.root }
  | _ => acc

/-- The option-merging loop of `schedulePart` (`src/schedule.js` lines
198-225): scans all elements in order, merging option records over the
values inherited from the parent, and counts the option records. -/
def mergeOptions (children : List Playable)
    (velocity volume vibrato vibratoFrequency transpose root : Option ℚ) : MergedOptions :=
  children.foldl mergeOptionsStep
    { amountOfOptions := 0, alternate := false, chord := false
      velocity := velocity, volume := volume, vibrato := vibrato
      vibratoFrequency := vibratoFrequency, transpose := transpose, root := root }

/-- JS `Math.round`: round half towards positive infinity. -/
def jsRound (q : ℚ) : ℤ := ⌊q + 1 / 2⌋

/-- A voice instance as the scheduler sees it (`createInstance` in
`src/instruments.js`, lines 532-552): object identity (`id`), the
`willPlayUntil` timestamp, and `previousPitch`. -/
structure Instance where
  id : Nat
  willPlayUntil : ℚ
  previousPitch : ℚ
deriving DecidableEq

/-- One dispatched note: the arguments the scheduler hands to the synthesis
layer when it flushes a pending note (`playPendingNote`, `src/schedule.js`
lines 329-339). The actual call converts `note`/`root` to a frequency with
`numberToFrequency`; we log the raw values. -/
structure NotePlacement where
  instrument : Nat
  note : ℚ
  root : ℚ
  at_ : ℚ
  duration : ℚ
  velocity : Option ℚ
  volume : Option ℚ
  vibrato : Option ℚ
  vibratoFrequency : Option ℚ
deriving DecidableEq

/-- The single pending-note slot of a schedule (`createSchedule`,
`src/schedule.js` lines 108-119). `instrument` is `none` while the JS field
holds `null`. -/
structure PendingNote where
  pending : Bool
  instrument : Option Nat
  note : ℚ
  root : ℚ
  at_ : ℚ
  duration : ℚ
  velocity : Option ℚ
  volume : Option ℚ
  vibrato : Option ℚ
  vibratoFrequency : Option ℚ
deriving DecidableEq

/-- The per-audio-context schedule state (`createSchedule`, `src/schedule.js`
lines 98-120), plus the observable log of dispatched notes (`placements`)
and a fresh-id counter modelling instance object identity. -/
structure Schedule where
  scheduledUpTo : ℚ
  instruments : List (Nat × List Instance)
  pendingNote : PendingNote
  nextId : Nat
  placements : List NotePlacement
deriving DecidableEq

/-- The synthesis layer as the scheduler observes it: `playEnd` models the
`endAt` computed inside `playInstance` (`src/instruments.js` line 655 and
following) and stored into `willPlayUntil`; `playedPitch` models the
frequency `numberToFrequency(note, undefined, root)` stored into
`previousPitch`. Both are out of the scheduler's scope and kept abstract. -/
structure SynthCtx where
  playEnd : NotePlacement → Instance → ℚ
  playedPitch : NotePlacement → ℚ

/-- `createInstance` (`src/instruments.js` lines 532-552) as far as the
scheduler observes it: a fresh instance with `willPlayUntil: 0` and
`previousPitch: 440`. -/
def createInstance (nextId : Nat) : Instance :=
  { id := nextId, willPlayUntil := 0, previousPitch := 440 }

/-- The metadata effect of `playInstance` (`src/instruments.js` lines
757-759): store the note end time into `willPlayUntil` and the played
frequency into `previousPitch`. -/
def playInstance (ctx : SynthCtx) (inst : Instance) (placement : NotePlacement) : Instance :=
  { inst with willPlayUntil := ctx.playEnd placement inst, previousPitch := ctx.playedPitch placement }

/-- The free-instance scan of `playPendingNote` (`src/schedule.js` lines
314-321): the first instance whose `willPlayUntil` is at or before the
note's start. -/
def findFreeInstance (instances : List Instance) (at_ : ℚ) : Option Instance :=
  instances.find? (fun inst => decide (inst.willPlayUntil ≤ at_))

/-- `schedule.instruments.get(preset)` on the insertion-ordered map. -/
def lookupInstrument (instruments : List (Nat × List Instance)) (preset : Nat) :
    Option (List Instance) :=
  match instruments.find? (fun entry => entry.1 == preset) with
  | some entry => some entry.2
  | none => none

/-- Replace the instance set stored under `preset`. -/
def updateInstrument (instruments : List (Nat × List Instance)) (preset : Nat)
    (instances : List Instance) : List (Nat × List Instance) :=
  instruments.map (fun entry => if entry.1 = preset then (entry.1, instances) else entry)

/-- `playPendingNote` (`src/schedule.js` lines 309-340): clear the pending
flag, find a free instance of the pending note's instrument or create a new
one, and play the note on it. The dispatched placement is appended to the
observable log. The `none` instrument branch is unreachable: a pending note
always records the instrument that opened it. -/
def playPendingNote (ctx : SynthCtx) (s : Schedule) : Schedule :=
  let pn := s.pendingNote
  let cleared := { s with pendingNote := { pn with pending := false } }
  match pn.instrument with
  | none => cleared
  | some preset =>
      let placement : NotePlacement :=
        { instrument := preset, note := pn.note, root := pn.root, at_ := pn.at_
          duration := pn.duration, velocity := pn.velocity, volume := pn.volume
          vibrato := pn.vibrato, vibratoFrequency := pn.vibratoFrequency }
      let instances := (lookupInstrument cleared.instruments preset).getD []
      match findFreeInstance instances pn.at_ with
      | some inst =>
          let played := playInstance ctx inst placement
          { cleared with
            instruments := updateInstrument cleared.instruments preset
              (instances.map (fun i => if i.id = inst.id then played else i))
            placements := cleared.placements ++ [placement] }
      | none =>
          let played := playInstance ctx (createInstance cleared.nextId) placement
          { cleared with
            nextId := cleared.nextId + 1
            instruments := updateInstrument cleared.instruments preset (instances ++ [played])
            placements := cleared.placements ++ [placement] }

/-- The `undefined` (extend) behaviour of `schedulePart`
(`src/schedule.js` lines 188-192): lengthen the pending note, or do
nothing. Note that for an `undefined` playable the line-150 window guard is
equivalent to this (when nothing is pending the extend is a no-op anyway),
so this function is also used where JS indexes past the array and reads
`undefined`. -/
def extendPendingNote (s : Schedule) (duration : ℚ) : Schedule :=
  if s.pendingNote.pending then
    { s with pendingNote := { s.pendingNote with duration := s.pendingNote.duration + duration } }
  else s

mutual

/-- `schedulePart` (`src/schedule.js` lines 134-304): walk one playable,
given its allotted absolute start `at_` and `duration`, the musical
`period`, the scheduling window `from_`/`to_`, and the performance
parameters inherited from the parent. -/
def schedulePart (ctx : SynthCtx) (s : Schedule) (instrument : Nat) (playable : Playable)
    (at_ duration period from_ to_ : ℚ)
    (velocityFromParent volumeFromParent vibratoFromParent vibratoFrequencyFromParent
      transposeFromParent rootFromParent : Option ℚ) : Schedule :=
  if to_ < at_ ∧ s.pendingNote.pending = false then s
  else
    match playable with
    | .num value =>
        if at_ < from_ then s
        else
          let s1 := if s.pendingNote.pending then playPendingNote ctx s else s
          if to_ < at_ then s1
          else
            { s1 with
              pendingNote :=
                { pending := true
                  instrument := some instrument
                  note := value + transposeFromParent.getD 0
                  root := rootFromParent.getD 0
                  at_ := at_
                  duration := duration
                  velocity := velocityFromParent
                  volume := volumeFromParent
                  vibrato := vibratoFromParent
                  vibratoFrequency := vibratoFrequencyFromParent } }
    | .rest => if s.pendingNote.pending then playPendingNote ctx s else s
    | .undef => extendPendingNote s duration
    | .options _ => s
    | .unknown => s
    | .seq children =>
        let merged := mergeOptions children velocityFromParent volumeFromParent vibratoFromParent
          vibratoFrequencyFromParent transposeFromParent rootFromParent
        let length := children.length - merged.amountOfOptions
        if merged.alternate then
          if length = 0 then
            extendPendingNote s duration
          else
            let index : ℤ := Int.tmod (jsRound period) (length : ℤ)
            let childPeriod : ℚ := (period - (index : ℚ)) / (length : ℚ)
            if 0 ≤ index then
              altChild ctx s instrument children index.toNat at_ duration childPeriod from_ to_
                merged.velocity merged.volume merged.vibrato merged.vibratoFrequency
                merged.transpose merged.root
            else
              extendPendingNote s duration
        else if merged.chord then
          chordChildren ctx s instrument children length at_ duration period from_ to_
            merged.velocity merged.volume merged.vibrato merged.vibratoFrequency
            merged.transpose merged.root
        else
          seqChildren ctx s instrument children length 0 at_ (duration / (length : ℚ)) period
            from_ to_ merged.velocity merged.volume merged.vibrato merged.vibratoFrequency
            merged.transpose merged.root

/-- The alternate branch of `schedulePart` (`src/schedule.js` lines
229-252): recurse into the raw element at the selected index, with the
parent's time slice and the rescaled sub-period. Reading past the array
(or a `% 0` index) yields JS `undefined`, an extend marker. -/
def altChild (ctx : SynthCtx) (s : Schedule) (instrument : Nat) (children : List Playable)
    (index : Nat) (at_ duration childPeriod from_ to_ : ℚ)
    (velocity volume vibrato vibratoFrequency transpose root : Option ℚ) : Schedule :=
  match children, index with
  | [], _ => extendPendingNote s duration
  | child :: _, 0 =>
      schedulePart ctx s instrument child at_ duration childPeriod from_ to_
        velocity volume vibrato vibratoFrequency transpose root
  | _ :: restChildren, n + 1 =>
      altChild ctx s instrument restChildren n at_ duration childPeriod from_ to_
        velocity volume vibrato vibratoFrequency transpose root

/-- The chord branch of `schedulePart` (`src/schedule.js` lines 255-278):
recurse into the first `remaining` raw elements, all with the parent's
start, duration and period. The `[]`-with-remaining case is unreachable
because the loop bound never exceeds the array length. -/
def chordChildren (ctx : SynthCtx) (s : Schedule) (instrument : Nat) (children : List Playable)
    (remaining : Nat) (at_ duration period from_ to_ : ℚ)
    (velocity volume vibrato vibratoFrequency transpose root : Option ℚ) : Schedule :=
  match children, remaining with
  | _, 0 => s
  | [], _ + 1 => s
  | child :: restChildren, n + 1 =>
      let s1 := schedulePart ctx s instrument child at_ duration period from_ to_
        velocity volume vibrato vibratoFrequency transpose root
      chordChildren ctx s1 instrument restChildren n at_ duration period from_ to_
        velocity volume vibrato vibratoFrequency transpose root

/-- The default sequence branch of `schedulePart` (`src/schedule.js` lines
280-304): recurse into the first `remaining` raw elements, giving element
`index` the slice starting at `at_ + index * childDuration`. The
`[]`-with-remaining case is unreachable because the loop bound never
exceeds the array length. -/
def seqChildren (ctx : SynthCtx) (s : Schedule) (instrument : Nat) (children : List Playable)
    (remaining index : Nat) (at_ childDuration period from_ to_ : ℚ)
    (velocity volume vibrato vibratoFrequency transpose root : Option ℚ) : Schedule :=
  match children, remaining with
  | _, 0 => s
  | [], _ + 1 => s
  | child :: restChildren, n + 1 =>
      let s1 := schedulePart ctx s instrument child (at_ + (index : ℚ) * childDuration)
        childDuration period from_ to_ velocity volume vibrato vibratoFrequency transpose root
      seqChildren ctx s1 instrument restChildren n (index + 1) at_ childDuration period from_ to_
        velocity volume vibrato vibratoFrequency transpose root

end

/-- The fresh schedule state created on first use (`createSchedule`,
`src/schedule.js` lines 98-120). -/
def createSchedule : Schedule :=
  { scheduledUpTo := 0
    instruments := []
    pendingNote :=
      { pending := false, instrument := none, note := 0, root := 0, at_ := 0, duration := 0
        velocity := none, volume := none, vibrato := none, vibratoFrequency := none }
    nextId := 0
    placements := [] }

/-- The stall catch-up step of `scheduleMusic` (`src/schedule.js` lines
40-43): if `scheduledUpTo` fell behind the clock, jump it forward by
`currentTime + playAhead - scheduledUpTo`. -/
def catchUp (s : Schedule) (currentTime playAhead : ℚ) : Schedule :=
  if s.scheduledUpTo < currentTime then
    { s with scheduledUpTo := s.scheduledUpTo + (currentTime + playAhead - s.scheduledUpTo) }
  else s

/-- The error thrown when the cycle walk exceeds its hard cap
(`src/schedule.js` lines 73-76). -/
def capMessage : String :=
  "scheduleMusic tried to loop way too many times: either the cycle is too short or the tracks are messed up"

/-- The per-track `while` loop of `scheduleMusic` (`src/schedule.js` lines
66-77): walk cycles while more cycles are in reach or a note is pending.
`checkedCycles` counts walked cycles as in the source; `budget` is
`64 - checkedCycles`, so the `checkedCycles > 64` throw of line 73 fires
exactly when `budget` hits zero after a walked cycle. The `Except` form is
the value the caller receives: a JS `throw` hands the caller only the
error, so the error branch drops the walked state — which the source keeps
in its per-context `WeakMap`. `scheduleTrackGoSt` below carries that
persisted state, and the two views are proven to agree. -/
def scheduleTrackGo (ctx : SynthCtx) (preset : Nat) (sequence : Playable)
    (cycle from_ to_ : ℚ) (cyclesToCheck : Nat) (budget checkedCycles : Nat) (s : Schedule) :
    Except String Schedule :=
  if checkedCycles < cyclesToCheck ∨ s.pendingNote.pending = true then
    let cycleStartedAt : ℚ := ((⌊from_ / cycle⌋ + (checkedCycles : ℤ) : ℤ) : ℚ) * cycle
    let period : ℚ := cycleStartedAt / cycle
    let s1 := schedulePart ctx s preset sequence cycleStartedAt cycle period from_ to_
      none none none none none none
    match budget with
    | 0 => Except.error capMessage
    | b + 1 => scheduleTrackGo ctx preset sequence cycle from_ to_ cyclesToCheck b
        (checkedCycles + 1) s1
  else Except.ok s

/-- `schedule.instruments.get(preset) || schedule.instruments.set(preset,
createInstrument(preset)).get(preset)` (`src/schedule.js` lines 62-63):
get the track's instrument, registering a fresh one (an empty instance
set, `createInstrument` in `src/instruments.js` line 398) on first use. -/
def getOrCreateInstrument (s : Schedule) (preset : Nat) : Schedule :=
  match lookupInstrument s.instruments preset with
  | some _ => s
  | none => { s with instruments := s.instruments ++ [(preset, [])] }

/-- The track loop of `scheduleMusic` (`src/schedule.js` lines 56-78): skip
tracks with no preset, get or create each track's instrument, and run the
cycle walk; a thrown error propagates. -/
def scheduleTracks (ctx : SynthCtx) (tracks : List (Option Nat × Playable))
    (cycle from_ to_ : ℚ) (cyclesToCheck : Nat) (s : Schedule) : Except String Schedule :=
  match tracks with
  | [] => Except.ok s
  | (none, _) :: restTracks => scheduleTracks ctx restTracks cycle from_ to_ cyclesToCheck s
  | (some preset, sequence) :: restTracks =>
      match scheduleTrackGo ctx preset sequence cycle from_ to_ cyclesToCheck 64 0
          (getOrCreateInstrument s preset) with
      | Except.error e => Except.error e
      | Except.ok s2 => scheduleTracks ctx restTracks cycle from_ to_ cyclesToCheck s2

/-- The eviction pass of `scheduleMusic` (`src/schedule.js` lines 80-89):
destroy every instance idle for more than two cycles relative to
`scheduledUpTo` (`destroyInstance` removes it from the instrument's set),
then drop instruments left with no instances. -/
def destroyInactiveInstances (s : Schedule) (cycle : ℚ) : Schedule :=
  let swept := s.instruments.map
    (fun entry =>
      (entry.1, entry.2.filter (fun inst => decide (s.scheduledUpTo - inst.willPlayUntil ≤ cycle * 2))))
  { s with instruments := swept.filter (fun entry => !entry.2.isEmpty) }

/-- The body of the scheduling branch of `scheduleMusic` (`src/schedule.js`
lines 55-89): walk every track over the window, then run the eviction
pass; a thrown error propagates and skips the eviction. -/
def runTracksAndSweep (ctx : SynthCtx) (tracks : List (Option Nat × Playable))
    (cycle from_ to_ : ℚ) (cyclesToCheck : Nat) (s : Schedule) : Except String Schedule :=
  match scheduleTracks ctx tracks cycle from_ to_ cyclesToCheck s with
  | Except.error e => Except.error e
  | Except.ok s3 => Except.ok (destroyInactiveInstances s3 cycle)

/-- `scheduleMusic` (`src/schedule.js` lines 24-91). Inputs mirror the JS
call: the tracks, the cycle length, the audio clock `currentTime` and
whether the context is `running`, whether the document is `hidden`, and the
`playAhead` option. The schedule state is threaded explicitly (in JS it
lives in a per-context `WeakMap`). -/
def scheduleMusic (ctx : SynthCtx) (tracks : List (Option Nat × Playable)) (cycle : ℚ)
    (currentTime : ℚ) (running hidden : Bool) (playAhead : ℚ) (s : Schedule) :
    Except String Schedule :=
  if running = false then Except.ok s
  else
    let s1 := catchUp s currentTime playAhead
    let scheduleAheadBy := if hidden then 1 + playAhead else playAhead
    if s1.scheduledUpTo < currentTime + scheduleAheadBy then
      let from_ := s1.scheduledUpTo
      let to_ := currentTime + scheduleAheadBy
      let s2 := { s1 with scheduledUpTo := to_ }
      let cycleEndsAt : ℚ := ((⌊from_ / cycle⌋ + 1 : ℤ) : ℚ) * cycle
      let cyclesToCheck : Nat := if cycleEndsAt < to_ then 2 else 1
      runTracksAndSweep ctx tracks cycle from_ to_ cyclesToCheck s2
    else Except.ok s1

/-- A whole run of the scheduling loop: invoke `scheduleMusic` on a
sequence of `(currentTime, hidden)` observations of a running context,
with fixed tracks, cycle and `playAhead`. -/
def runScheduleMusic (ctx : SynthCtx) (tracks : List (Option Nat × Playable))
    (cycle playAhead : ℚ) (inputs : List (ℚ × Bool)) (s : Schedule) : Except String Schedule :=
  match inputs with
  | [] => Except.ok s
  | (currentTime, hidden) :: restInputs =>
      match scheduleMusic ctx tracks cycle currentTime true hidden playAhead s with
      | Except.error e => Except.error e
      | Except.ok s1 => runScheduleMusic ctx tracks cycle playAhead restInputs s1

/-! ## The persisted schedule state, throw included

The JS schedule object lives in a per-context `WeakMap`
(`src/schedule.js` lines 21, 26-37) and is mutated in place, so every
mutation made before the cycle-cap `throw` of line 73 — `scheduledUpTo`
already advanced at line 50, the instrument registered at line 62, the
pending note as the walks left it — survives the throw and is seen by the
next invocation. The `St` variants below return that persisted state next
to the optionally-thrown message; the `Except` definitions above are the
caller's view of the same computation, as the agreement theorems prove. -/

/-- The state-carrying form of the per-track `while` loop (`src/schedule.js`
lines 66-77): identical to `scheduleTrackGo`, except that the cap overflow
returns the walked schedule (the 65th `schedulePart` walk included) next to
the thrown message. -/
def scheduleTrackGoSt (ctx : SynthCtx) (preset : Nat) (sequence : Playable)
    (cycle from_ to_ : ℚ) (cyclesToCheck : Nat) (budget checkedCycles : Nat) (s : Schedule) :
    Schedule × Option String :=
  if checkedCycles < cyclesToCheck ∨ s.pendingNote.pending = true then
    let cycleStartedAt : ℚ := ((⌊from_ / cycle⌋ + (checkedCycles : ℤ) : ℤ) : ℚ) * cycle
    let period : ℚ := cycleStartedAt / cycle
    let s1 := schedulePart ctx s preset sequence cycleStartedAt cycle period from_ to_
      none none none none none none
    match budget with
    | 0 => (s1, some capMessage)
    | b + 1 => scheduleTrackGoSt ctx preset sequence cycle from_ to_ cyclesToCheck b
        (checkedCycles + 1) s1
  else (s, none)

/-- The state-carrying form of the track loop (`src/schedule.js` lines
56-78): a throw stops the remaining tracks but keeps the state walked so
far. -/
def scheduleTracksSt (ctx : SynthCtx) (tracks : List (Option Nat × Playable))
    (cycle from_ to_ : ℚ) (cyclesToCheck : Nat) (s : Schedule) : Schedule × Option String :=
  match tracks with
  | [] => (s, none)
  | (none, _) :: restTracks => scheduleTracksSt ctx restTracks cycle from_ to_ cyclesToCheck s
  | (some preset, sequence) :: restTracks =>
      match scheduleTrackGoSt ctx preset sequence cycle from_ to_ cyclesToCheck 64 0
          (getOrCreateInstrument s preset) with
      | (s2, some e) => (s2, some e)
      | (s2, none) => scheduleTracksSt ctx restTracks cycle from_ to_ cyclesToCheck s2

/-- The state-carrying form of the scheduling branch (`src/schedule.js`
lines 55-89): a throw skips the eviction pass but keeps the walked state. -/
def runTracksAndSweepSt (ctx : SynthCtx) (tracks : List (Option Nat × Playable))
    (cycle from_ to_ : ℚ) (cyclesToCheck : Nat) (s : Schedule) : Schedule × Option String :=
  match scheduleTracksSt ctx tracks cycle from_ to_ cyclesToCheck s with
  | (s3, some e) => (s3, some e)
  | (s3, none) => (destroyInactiveInstances s3 cycle, none)

/-- The state-carrying form of `scheduleMusic` (`src/schedule.js` lines
24-91): the per-context `WeakMap` state after the invocation, next to the
message of the throw, if one escaped. -/
def scheduleMusicSt (ctx : SynthCtx) (tracks : List (Option Nat × Playable)) (cycle : ℚ)
    (currentTime : ℚ) (running hidden : Bool) (playAhead : ℚ) (s : Schedule) :
    Schedule × Option String :=
  if running = false then (s, none)
  else
    let s1 := catchUp s currentTime playAhead
    let scheduleAheadBy := if hidden then 1 + playAhead else playAhead
    if s1.scheduledUpTo < currentTime + scheduleAheadBy then
      let from_ := s1.scheduledUpTo
      let to_ := currentTime + scheduleAheadBy
      let s2 := { s1 with scheduledUpTo := to_ }
      let cycleEndsAt : ℚ := ((⌊from_ / cycle⌋ + 1 : ℤ) : ℚ) * cycle
      let cyclesToCheck : Nat := if cycleEndsAt < to_ then 2 else 1
      runTracksAndSweepSt ctx tracks cycle from_ to_ cyclesToCheck s2
    else (s1, none)

/-- The caller's view of a state-carrying result: the returned schedule on
normal completion, the thrown message otherwise (the caller of a throwing
JS function sees only the exception; the mutated schedule stays behind in
the `WeakMap`). -/
def exceptView (r : Schedule × Option String) : Except String Schedule :=
  match r.2 with
  | some e => Except.error e
  | none => Except.ok r.1

theorem exceptView_some (s : Schedule) (e : String) :
    exceptView (s, some e) = Except.error e := rfl

theorem exceptView_none (s : Schedule) : exceptView (s, none) = Except.ok s := rfl

theorem scheduleTrackGo_eq_st (ctx : SynthCtx) (preset : Nat) (sequence : Playable)
    (cycle from_ to_ : ℚ) (cyclesToCheck : Nat) :
    ∀ (budget checkedCycles : Nat) (s : Schedule),
      scheduleTrackGo ctx preset sequence cycle from_ to_ cyclesToCheck budget checkedCycles s =
        exceptView (scheduleTrackGoSt ctx preset sequence cycle from_ to_ cyclesToCheck
          budget checkedCycles s) := by
  intro budget
  induction budget with
  | zero =>
      intro c s
      rw [scheduleTrackGo.eq_def, scheduleTrackGoSt.eq_def]
      by_cases h : c < cyclesToCheck ∨ s.pendingNote.pending = true
      · rw [if_pos h, if_pos h]
        rfl
      · rw [if_neg h, if_neg h]
        rfl
  | succ b ih =>
      intro c s
      rw [scheduleTrackGo.eq_def, scheduleTrackGoSt.eq_def]
      by_cases h : c < cyclesToCheck ∨ s.pendingNote.pending = true
      · rw [if_pos h, if_pos h]
        dsimp only
        exact ih _ _
      · rw [if_neg h, if_neg h]
        rfl

theorem scheduleTracks_eq_st (ctx : SynthCtx) (cycle from_ to_ : ℚ) (cyclesToCheck : Nat) :
    ∀ (tracks : List (Option Nat × Playable)) (s : Schedule),
      scheduleTracks ctx tracks cycle from_ to_ cyclesToCheck s =
        exceptView (scheduleTracksSt ctx tracks cycle from_ to_ cyclesToCheck s) := by
  intro tracks
  induction tracks with
  | nil =>
      intro s
      rfl
  | cons t rest ih =>
      intro s
      obtain ⟨p, sequence⟩ := t
      cases p with
      | none =>
          rw [scheduleTracks.eq_def, scheduleTracksSt.eq_def]
          dsimp only
          exact ih s
      | some preset =>
          rcases hg : scheduleTrackGoSt ctx preset sequence cycle from_ to_ cyclesToCheck 64 0
            (getOrCreateInstrument s preset) with ⟨s2, me⟩
          rw [scheduleTracks.eq_def, scheduleTracksSt.eq_def]
          dsimp only
          rw [scheduleTrackGo_eq_st ctx preset sequence cycle from_ to_ cyclesToCheck 64 0
            (getOrCreateInstrument s preset), hg]
          cases me with
          | some e => rfl
          | none =>
              rw [exceptView_none]
              dsimp only
              exact ih s2

theorem runTracksAndSweep_eq_st (ctx : SynthCtx) (tracks : List (Option Nat × Playable))
    (cycle from_ to_ : ℚ) (cyclesToCheck : Nat) (s : Schedule) :
    runTracksAndSweep ctx tracks cycle from_ to_ cyclesToCheck s =
      exceptView (runTracksAndSweepSt ctx tracks cycle from_ to_ cyclesToCheck s) := by
  unfold runTracksAndSweep runTracksAndSweepSt
  rw [scheduleTracks_eq_st ctx cycle from_ to_ cyclesToCheck tracks s]
  rcases hg : scheduleTracksSt ctx tracks cycle from_ to_ cyclesToCheck s with ⟨s3, me⟩
  cases me with
  | some e => rfl
  | none => rfl

theorem scheduleMusic_eq_st (ctx : SynthCtx) (tracks : List (Option Nat × Playable))
    (cycle currentTime : ℚ) (running hidden : Bool) (playAhead : ℚ) (s : Schedule) :
    scheduleMusic ctx tracks cycle currentTime running hidden playAhead s =
      exceptView (scheduleMusicSt ctx tracks cycle currentTime running hidden playAhead s) := by
  unfold scheduleMusic scheduleMusicSt
  by_cases hr : running = false
  · rw [if_pos hr, if_pos hr]
    rfl
  · rw [if_neg hr, if_neg hr]
    dsimp only
    by_cases hw : (catchUp s currentTime playAhead).scheduledUpTo <
        currentTime + (if hidden then 1 + playAhead else playAhead)
    · rw [if_pos hw, if_pos hw]
      exact runTracksAndSweep_eq_st ctx tracks cycle _ _ _ _
    · rw [if_neg hw, if_neg hw]
      rfl

/-! ## Shared helpers for the claim theorems -/

/-- A concrete synthesis layer used in closed evaluations: a voice is busy
exactly for the scheduled span of its note, and the stored pitch is the raw
note value. -/
def simpleSynth : SynthCtx :=
  { playEnd := fun pl _ => pl.at_ + pl.duration, playedPitch := fun pl => pl.note }

theorem schedulePart_undef (ctx : SynthCtx) (s : Schedule) (instrument : Nat)
    (at_ duration period from_ to_ : ℚ) (v vo vi vf tr rt : Option ℚ) :
    schedulePart ctx s instrument .undef at_ duration period from_ to_ v vo vi vf tr rt =
      extendPendingNote s duration := by
  unfold schedulePart
  split
  · next h =>
      unfold extendPendingNote
      rw [if_neg (by simp [h.2])]
  · rfl

theorem extendPendingNote_pendingNote_pending (s : Schedule) (duration : ℚ) :
    (extendPendingNote s duration).pendingNote.pending = s.pendingNote.pending := by
  unfold extendPendingNote
  split <;> rfl

theorem extendPendingNote_placements (s : Schedule) (duration : ℚ) :
    (extendPendingNote s duration).placements = s.placements := by
  unfold extendPendingNote
  split <;> rfl

theorem playPendingNote_pendingNote_pending (ctx : SynthCtx) (s : Schedule) :
    (playPendingNote ctx s).pendingNote.pending = false := by
  cases hinst : s.pendingNote.instrument with
  | none => simp [playPendingNote, hinst]
  | some preset =>
      cases hfind : findFreeInstance ((lookupInstrument s.instruments preset).getD [])
          s.pendingNote.at_ with
      | none => simp [playPendingNote, hinst, hfind]
      | some inst => simp [playPendingNote, hinst, hfind]

/-! ## C6: determinism of the scheduling loop -/

/-- C6: for any fixed sequence of `(currentTime, hidden)` inputs and fixed
track data, two independent runs of the scheduling loop, each starting from
a fresh schedule state, produce identical sequences of dispatched note
placements. -/
theorem c6_determinism (ctx : SynthCtx) (tracks : List (Option Nat × Playable))
    (cycle playAhead : ℚ) (inputs : List (ℚ × Bool)) (s1 s2 : Schedule)
    (h1 : s1 = createSchedule) (h2 : s2 = createSchedule) :
    (runScheduleMusic ctx tracks cycle playAhead inputs s1).map (fun s => s.placements) =
      (runScheduleMusic ctx tracks cycle playAhead inputs s2).map (fun s => s.placements) := by
  subst h1
  subst h2
  rfl

theorem c6_determinism_witness :
    createSchedule = createSchedule ∧
      (runScheduleMusic simpleSynth [(some 0, Playable.seq [Playable.num 0])] 1 1 [(0, false)]
          createSchedule).map (fun s => s.placements) =
        (runScheduleMusic simpleSynth [(some 0, Playable.seq [Playable.num 0])] 1 1 [(0, false)]
          createSchedule).map (fun s => s.placements) :=
  ⟨rfl, c6_determinism simpleSynth [(some 0, Playable.seq [Playable.num 0])] 1 1 [(0, false)]
    createSchedule createSchedule rfl rfl⟩

/-! ## C7: a terminal number before the window start does not flush -/

/-- A schedule with an open pending note (pitch 5 starting at 1/10), as left
behind by an earlier sibling of a chord node. -/
def pendingSchedule : Schedule :=
  { scheduledUpTo := 0
    instruments := [(0, [])]
    pendingNote :=
      { pending := true, instrument := some 0, note := 5, root := 0, at_ := 1/10, duration := 1/10
        velocity := none, volume := none, vibrato := none, vibratoFrequency := none }
    nextId := 0
    placements := [] }

/-- C7 counterexample: the evaluator reaches the terminal number 3 at
absolute time 0, before the window start 1/20, while a note is pending —
and returns with the state completely unchanged: the pending note is NOT
flushed first (no placement is dispatched and the note stays pending),
contradicting the claim. -/
theorem c7_counterexample :
    pendingSchedule.pendingNote.pending = true ∧ (0 : ℚ) < 1/20 ∧
      schedulePart simpleSynth pendingSchedule 0 (Playable.num 3) 0 (1/10) 0 (1/20) (1/5)
        none none none none none none = pendingSchedule := by
  refine ⟨by rfl, by norm_num, ?_⟩
  norm_num [schedulePart, pendingSchedule]

/-- C7 (amended): a terminal number whose absolute start time is before the
window start `from_` is discarded immediately, returning the state
unchanged — in particular a pending note is neither flushed nor modified by
it; pending notes are flushed only by terminal numbers at or after
`from_` (or by rests). -/
theorem c7_num_before_window_skipped (ctx : SynthCtx) (s : Schedule) (instrument : Nat)
    (value at_ duration period from_ to_ : ℚ) (v vo vi vf tr rt : Option ℚ)
    (h : at_ < from_) :
    schedulePart ctx s instrument (.num value) at_ duration period from_ to_ v vo vi vf tr rt =
      s := by
  unfold schedulePart
  split
  · rfl
  · simp [h]

theorem c7_num_before_window_skipped_witness :
    (0 : ℚ) < 1/20 ∧
      schedulePart simpleSynth pendingSchedule 0 (Playable.num 3) 0 (1/10) 0 (1/20) (1/5)
        none none none none none none = pendingSchedule :=
  ⟨by norm_num,
    c7_num_before_window_skipped simpleSynth pendingSchedule 0 3 0 (1/10) 0 (1/20) (1/5)
      none none none none none none (by norm_num)⟩

/-! ## C10: no pending note survives a completed invocation -/

theorem scheduleTrackGo_ok_pending (ctx : SynthCtx) (preset : Nat) (sequence : Playable)
    (cycle from_ to_ : ℚ) (cyclesToCheck : Nat) :
    ∀ (budget checkedCycles : Nat) (s r : Schedule),
      scheduleTrackGo ctx preset sequence cycle from_ to_ cyclesToCheck budget checkedCycles s =
        Except.ok r →
      r.pendingNote.pending = false := by
  intro budget
  induction budget with
  | zero =>
      intro checked s r h
      unfold scheduleTrackGo at h
      by_cases hc : checked < cyclesToCheck ∨ s.pendingNote.pending = true
      · rw [if_pos hc] at h
        simp at h
      · rw [if_neg hc] at h
        cases h
        push_neg at hc
        simpa using hc.2
  | succ b ih =>
      intro checked s r h
      unfold scheduleTrackGo at h
      by_cases hc : checked < cyclesToCheck ∨ s.pendingNote.pending = true
      · rw [if_pos hc] at h
        exact ih _ _ _ h
      · rw [if_neg hc] at h
        cases h
        push_neg at hc
        simpa using hc.2

theorem scheduleTracks_ok_pending (ctx : SynthCtx) (cycle from_ to_ : ℚ) (cyclesToCheck : Nat) :
    ∀ (tracks : List (Option Nat × Playable)) (s r : Schedule),
      s.pendingNote.pending = false →
      scheduleTracks ctx tracks cycle from_ to_ cyclesToCheck s = Except.ok r →
      r.pendingNote.pending = false := by
  intro tracks
  induction tracks with
  | nil =>
      intro s r hp h
      unfold scheduleTracks at h
      cases h
      exact hp
  | cons track rest ih =>
      intro s r hp h
      obtain ⟨preset?, sequence⟩ := track
      cases preset? with
      | none =>
          unfold scheduleTracks at h
          exact ih _ _ hp h
      | some preset =>
          unfold scheduleTracks at h
          split at h
          · simp at h
          · next s2 htg =>
              exact ih _ _ (scheduleTrackGo_ok_pending _ _ _ _ _ _ _ _ _ _ _ htg) h

theorem destroyInactiveInstances_pendingNote (s : Schedule) (cycle : ℚ) :
    (destroyInactiveInstances s cycle).pendingNote = s.pendingNote := rfl

theorem runTracksAndSweep_ok_pending (ctx : SynthCtx) (tracks : List (Option Nat × Playable))
    (cycle from_ to_ : ℚ) (cyclesToCheck : Nat) (s r : Schedule)
    (hp : s.pendingNote.pending = false)
    (h : runTracksAndSweep ctx tracks cycle from_ to_ cyclesToCheck s = Except.ok r) :
    r.pendingNote.pending = false := by
  unfold runTracksAndSweep at h
  split at h
  · simp at h
  · next s3 hts =>
      cases h
      rw [destroyInactiveInstances_pendingNote]
      exact scheduleTracks_ok_pending ctx cycle from_ to_ cyclesToCheck tracks s s3 hp hts

theorem catchUp_pendingNote (s : Schedule) (currentTime playAhead : ℚ) :
    (catchUp s currentTime playAhead).pendingNote = s.pendingNote := by
  unfold catchUp
  split <;> rfl

/-- C10 (amended): an invocation of `scheduleMusic` that returns without
throwing *from a state whose pending-note flag is clear* leaves the flag
clear: each track's cycle walk only stops once nothing is pending (or
throws at the cycle cap). The entry hypothesis cannot be dropped: a
cap-throwing invocation persists a set flag in the per-context schedule
(the mutations made before the throw stay in the `WeakMap`), and a later
invocation that finds nothing to schedule returns without throwing and
without clearing it — the counterexample at the end of this file exhibits
such a run. -/
theorem c10_no_pending_after_invocation (ctx : SynthCtx)
    (tracks : List (Option Nat × Playable)) (cycle currentTime : ℚ) (running hidden : Bool)
    (playAhead : ℚ) (s s' : Schedule)
    (hpend : s.pendingNote.pending = false)
    (hok : scheduleMusic ctx tracks cycle currentTime running hidden playAhead s =
      Except.ok s') :
    s'.pendingNote.pending = false := by
  unfold scheduleMusic at hok
  by_cases hr : running = false
  · rw [if_pos hr] at hok
    cases hok
    exact hpend
  · rw [if_neg hr] at hok
    have hcp : (catchUp s currentTime playAhead).pendingNote.pending = false := by
      rw [catchUp_pendingNote]
      exact hpend
    by_cases hb : (catchUp s currentTime playAhead).scheduledUpTo <
        currentTime + (if hidden then 1 + playAhead else playAhead)
    · rw [if_pos hb] at hok
      exact runTracksAndSweep_ok_pending _ _ _ _ _ _ _ _ (by simpa using hcp) hok
    · rw [if_neg hb] at hok
      cases hok
      exact hcp

theorem c10_no_pending_after_invocation_witness :
    createSchedule.pendingNote.pending = false ∧
      scheduleMusic simpleSynth [] 1 0 true false 1 createSchedule =
        Except.ok { createSchedule with scheduledUpTo := 1 } ∧
      ({ createSchedule with scheduledUpTo := 1 } : Schedule).pendingNote.pending = false :=
  ⟨rfl, by norm_num [scheduleMusic, catchUp, createSchedule, scheduleTracks, runTracksAndSweep,
      destroyInactiveInstances],
    c10_no_pending_after_invocation simpleSynth [] 1 0 true false 1 createSchedule
      { createSchedule with scheduledUpTo := 1 } rfl
      (by norm_num [scheduleMusic, catchUp, createSchedule, scheduleTracks, runTracksAndSweep,
        destroyInactiveInstances])⟩

/-! ## Option-merge and rounding helper lemmas -/

theorem mergeOptionsStep_skip (acc : MergedOptions) (c : Playable)
    (hc : isOptionRecord c = false) : mergeOptionsStep acc c = acc := by
  cases c with
  | options o => simp [isOptionRecord] at hc
  | num value => rfl
  | rest => rfl
  | undef => rfl
  | seq children => rfl
  | unknown => rfl

theorem foldl_mergeOptionsStep_no_options (children : List Playable)
    (h : ∀ p ∈ children, isOptionRecord p = false) :
    ∀ acc : MergedOptions, children.foldl mergeOptionsStep acc = acc := by
  induction children with
  | nil => intro acc; rfl
  | cons c rest ih =>
      intro acc
      rw [List.foldl_cons, mergeOptionsStep_skip acc c (h c (List.mem_cons_self c rest))]
      exact ih (fun p hp => h p (List.mem_cons_of_mem c hp)) acc

theorem mergeOptions_no_options (children : List Playable)
    (velocity volume vibrato vibratoFrequency transpose root : Option ℚ)
    (h : ∀ p ∈ children, isOptionRecord p = false) :
    mergeOptions children velocity volume vibrato vibratoFrequency transpose root =
      { amountOfOptions := 0, alternate := false, chord := false
        velocity := velocity, volume := volume, vibrato := vibrato
        vibratoFrequency := vibratoFrequency, transpose := transpose, root := root } :=
  foldl_mergeOptionsStep_no_options children h _

theorem foldl_mergeOptionsStep_amount_le (children : List Playable) :
    ∀ acc : MergedOptions,
      (children.foldl mergeOptionsStep acc).amountOfOptions ≤
        acc.amountOfOptions + children.length := by
  induction children with
  | nil => intro acc; simp
  | cons c rest ih =>
      intro acc
      rw [List.foldl_cons]
      have h1 := ih (mergeOptionsStep acc c)
      have h2 : (mergeOptionsStep acc c).amountOfOptions ≤ acc.amountOfOptions + 1 := by
        cases c <;> simp [mergeOptionsStep]
      simp only [List.length_cons]
      omega

theorem mergeOptions_amount_le (children : List Playable)
    (velocity volume vibrato vibratoFrequency transpose root : Option ℚ) :
    (mergeOptions children velocity volume vibrato vibratoFrequency transpose
      root).amountOfOptions ≤ children.length := by
  have := foldl_mergeOptionsStep_amount_le children
    { amountOfOptions := 0, alternate := false, chord := false
      velocity := velocity, volume := volume, vibrato := vibrato
      vibratoFrequency := vibratoFrequency, transpose := transpose, root := root }
  simpa [mergeOptions] using this

theorem jsRound_natCast (k : ℕ) : jsRound (k : ℚ) = (k : ℤ) := by
  unfold jsRound
  rw [Int.floor_eq_iff]
  constructor
  · push_cast
    linarith
  · push_cast
    linarith

theorem jsRound_nonneg (q : ℚ) (h : 0 ≤ q) : 0 ≤ jsRound q := by
  unfold jsRound
  rw [Int.floor_nonneg]
  linarith

/-! ## Walk helper lemmas -/

theorem schedulePart_num_open (ctx : SynthCtx) (s : Schedule) (instrument : Nat) (value : ℚ)
    (at_ duration period from_ to_ : ℚ) (v vo vi vf tr rt : Option ℚ)
    (hp : s.pendingNote.pending = false) (h1 : from_ ≤ at_) (h2 : at_ ≤ to_) :
    schedulePart ctx s instrument (.num value) at_ duration period from_ to_ v vo vi vf tr rt =
      { s with pendingNote :=
        { pending := true, instrument := some instrument, note := value + tr.getD 0
          root := rt.getD 0, at_ := at_, duration := duration
          velocity := v, volume := vo, vibrato := vi, vibratoFrequency := vf } } := by
  unfold schedulePart
  rw [if_neg (by rintro ⟨h3, _⟩; exact absurd h3 (not_lt.2 h2))]
  dsimp only
  rw [if_neg (not_lt.2 h1), hp]
  simp only [Bool.false_eq_true, if_false]
  rw [if_neg (not_lt.2 h2)]

theorem altChild_eq_getD (ctx : SynthCtx) (instrument : Nat) :
    ∀ (children : List Playable) (index : Nat) (s : Schedule)
      (at_ duration childPeriod from_ to_ : ℚ) (v vo vi vf tr rt : Option ℚ),
      index < children.length →
      altChild ctx s instrument children index at_ duration childPeriod from_ to_
          v vo vi vf tr rt =
        schedulePart ctx s instrument (children.getD index .undef) at_ duration childPeriod
          from_ to_ v vo vi vf tr rt := by
  intro children
  induction children with
  | nil =>
      intro index s at_ duration childPeriod from_ to_ v vo vi vf tr rt h
      simp at h
  | cons c rest ih =>
      intro index s at_ duration childPeriod from_ to_ v vo vi vf tr rt h
      cases index with
      | zero => rfl
      | succ n => exact ih n s at_ duration childPeriod from_ to_ v vo vi vf tr rt (by simpa using h)

theorem altChild_replicate_undef (ctx : SynthCtx) (instrument : Nat) (tail : List Playable) :
    ∀ (n index : Nat), index < n →
      ∀ (s : Schedule) (at_ duration childPeriod from_ to_ : ℚ) (v vo vi vf tr rt : Option ℚ),
      altChild ctx s instrument (List.replicate n .undef ++ tail) index at_ duration childPeriod
          from_ to_ v vo vi vf tr rt = extendPendingNote s duration := by
  intro n
  induction n with
  | zero => intro index h; omega
  | succ m ih =>
      intro index h s at_ duration childPeriod from_ to_ v vo vi vf tr rt
      rw [List.replicate_succ, List.cons_append]
      cases index with
      | zero =>
          exact schedulePart_undef ctx s instrument at_ duration childPeriod from_ to_
            v vo vi vf tr rt
      | succ j => exact ih j (by omega) s at_ duration childPeriod from_ to_ v vo vi vf tr rt

theorem seqChildren_replicate_undef (ctx : SynthCtx) (instrument : Nat) :
    ∀ (n index : Nat) (s : Schedule) (at_ childDuration period from_ to_ : ℚ)
      (v vo vi vf tr rt : Option ℚ),
      s.pendingNote.pending = true →
      seqChildren ctx s instrument (List.replicate n .undef) n index at_ childDuration period
          from_ to_ v vo vi vf tr rt =
        { s with pendingNote :=
            { s.pendingNote with
              duration := s.pendingNote.duration + (n : ℚ) * childDuration } } := by
  intro n
  induction n with
  | zero =>
      intro index s at_ childDuration period from_ to_ v vo vi vf tr rt hp
      show s = _
      simp
  | succ m ih =>
      intro index s at_ childDuration period from_ to_ v vo vi vf tr rt hp
      rw [List.replicate_succ]
      show seqChildren ctx
        (schedulePart ctx s instrument .undef (at_ + (index : ℚ) * childDuration) childDuration
          period from_ to_ v vo vi vf tr rt)
        instrument (List.replicate m .undef) m (index + 1) at_ childDuration period from_ to_
        v vo vi vf tr rt = _
      rw [schedulePart_undef]
      have hext : extendPendingNote s childDuration =
          { s with pendingNote :=
            { s.pendingNote with duration := s.pendingNote.duration + childDuration } } := by
        unfold extendPendingNote
        rw [if_pos hp]
      rw [hext]
      rw [ih (index + 1) _ at_ childDuration period from_ to_ v vo vi vf tr rt (by simp [hp])]
      have harith : s.pendingNote.duration + childDuration + (m : ℚ) * childDuration =
          s.pendingNote.duration + ((m : ℚ) + 1) * childDuration := by ring
      simp [harith]

theorem playPendingNote_placements_of_instrument (ctx : SynthCtx) (s : Schedule) (preset : Nat)
    (hinst : s.pendingNote.instrument = some preset) :
    (playPendingNote ctx s).placements = s.placements ++
      [{ instrument := preset, note := s.pendingNote.note, root := s.pendingNote.root
         at_ := s.pendingNote.at_, duration := s.pendingNote.duration
         velocity := s.pendingNote.velocity, volume := s.pendingNote.volume
         vibrato := s.pendingNote.vibrato
         vibratoFrequency := s.pendingNote.vibratoFrequency }] := by
  cases hfind : findFreeInstance ((lookupInstrument s.instruments preset).getD [])
      s.pendingNote.at_ with
  | none => simp [playPendingNote, hinst, hfind]
  | some inst => simp [playPendingNote, hinst, hfind]

/-! ## C3: tie/extend law -/

/-- C3: in a sequence node whose children are a terminal number followed by
`m` extend markers, each child is allotted the slice `d = duration/(m+1)`;
after evaluating the node exactly one note for that pitch is pending (and
nothing was dispatched), with accumulated duration `d + m·d`; flushing it
dispatches exactly that one note; and an `undefined` encountered while no
note is pending is a no-op. -/
theorem c3_tie_extend (ctx : SynthCtx) (s : Schedule) (instrument : Nat) (value : ℚ) (m : ℕ)
    (at_ duration period from_ to_ : ℚ) (v vo vi vf tr rt : Option ℚ)
    (hp : s.pendingNote.pending = false) (h1 : from_ ≤ at_) (h2 : at_ ≤ to_) :
    (schedulePart ctx s instrument (.seq (.num value :: List.replicate m .undef))
        at_ duration period from_ to_ v vo vi vf tr rt).placements = s.placements ∧
    (schedulePart ctx s instrument (.seq (.num value :: List.replicate m .undef))
        at_ duration period from_ to_ v vo vi vf tr rt).pendingNote =
      { pending := true, instrument := some instrument, note := value + tr.getD 0
        root := rt.getD 0, at_ := at_
        duration := duration / ((m : ℚ) + 1) + (m : ℚ) * (duration / ((m : ℚ) + 1))
        velocity := v, volume := vo, vibrato := vi, vibratoFrequency := vf } ∧
    (playPendingNote ctx (schedulePart ctx s instrument
        (.seq (.num value :: List.replicate m .undef))
        at_ duration period from_ to_ v vo vi vf tr rt)).placements = s.placements ++
      [{ instrument := instrument, note := value + tr.getD 0, root := rt.getD 0, at_ := at_
         duration := duration / ((m : ℚ) + 1) + (m : ℚ) * (duration / ((m : ℚ) + 1))
         velocity := v, volume := vo, vibrato := vi, vibratoFrequency := vf }] ∧
    (∀ at2 d2 p2 f2 t2 : ℚ,
      schedulePart ctx s instrument .undef at2 d2 p2 f2 t2 v vo vi vf tr rt = s) := by
  have hnoopts : ∀ p ∈ Playable.num value :: List.replicate m Playable.undef,
      isOptionRecord p = false := by
    intro p hmem
    rcases List.mem_cons.1 hmem with hh | hh
    · rw [hh]; rfl
    · rw [List.eq_of_mem_replicate hh]; rfl
  have hmain : schedulePart ctx s instrument (.seq (.num value :: List.replicate m .undef))
      at_ duration period from_ to_ v vo vi vf tr rt =
      { s with pendingNote :=
        { pending := true, instrument := some instrument, note := value + tr.getD 0
          root := rt.getD 0, at_ := at_
          duration := duration / ((m : ℚ) + 1) + (m : ℚ) * (duration / ((m : ℚ) + 1))
          velocity := v, volume := vo, vibrato := vi, vibratoFrequency := vf } } := by
    unfold schedulePart
    rw [if_neg (by rintro ⟨h3, _⟩; exact absurd h3 (not_lt.2 h2))]
    dsimp only
    rw [mergeOptions_no_options _ _ _ _ _ _ _ hnoopts]
    simp only [Bool.false_eq_true, if_false, List.length_cons, List.length_replicate,
      Nat.sub_zero]
    show seqChildren ctx s instrument (.num value :: List.replicate m .undef) (m + 1) 0 at_
      (duration / ((m + 1 : ℕ) : ℚ)) period from_ to_ v vo vi vf tr rt = _
    show seqChildren ctx
      (schedulePart ctx s instrument (.num value) (at_ + ((0 : ℕ) : ℚ) * (duration / ((m + 1 : ℕ) : ℚ)))
        (duration / ((m + 1 : ℕ) : ℚ)) period from_ to_ v vo vi vf tr rt)
      instrument (List.replicate m .undef) m 1 at_ (duration / ((m + 1 : ℕ) : ℚ)) period from_ to_
      v vo vi vf tr rt = _
    rw [show at_ + ((0 : ℕ) : ℚ) * (duration / ((m + 1 : ℕ) : ℚ)) = at_ by push_cast; ring]
    rw [schedulePart_num_open ctx s instrument value at_ _ period from_ to_ v vo vi vf tr rt
      hp h1 h2]
    rw [seqChildren_replicate_undef ctx instrument m 1 _ at_ _ period from_ to_ v vo vi vf tr rt
      (by rfl)]
    have hcast : ((m + 1 : ℕ) : ℚ) = (m : ℚ) + 1 := by push_cast; ring
    simp [hcast]
  refine ⟨by rw [hmain], by rw [hmain], ?_, ?_⟩
  · rw [hmain]
    rw [playPendingNote_placements_of_instrument ctx _ instrument (by rfl)]
  · intro at2 d2 p2 f2 t2
    rw [schedulePart_undef]
    unfold extendPendingNote
    rw [hp]
    simp

theorem c3_tie_extend_witness :
    createSchedule.pendingNote.pending = false ∧ (0 : ℚ) ≤ 0 ∧ (0 : ℚ) ≤ 3 ∧
      (schedulePart simpleSynth createSchedule 0
          (.seq (.num 7 :: List.replicate 2 .undef)) 0 3 0 0 3
          none none none none none none).pendingNote =
        { pending := true, instrument := some 0, note := 7 + Option.getD none 0
          root := Option.getD none 0, at_ := 0
          duration := 3 / ((2 : ℚ) + 1) + (2 : ℚ) * (3 / ((2 : ℚ) + 1))
          velocity := none, volume := none, vibrato := none, vibratoFrequency := none } :=
  ⟨rfl, le_refl 0, by norm_num,
    (c3_tie_extend simpleSynth createSchedule 0 7 2 0 3 0 0 3
      none none none none none none rfl (le_refl 0) (by norm_num)).2.1⟩

/-! ## C4: cycle subdivision law -/

theorem seqChildren_eq_foldl (ctx : SynthCtx) (instrument : Nat)
    (at_ childDuration period from_ to_ : ℚ) (v vo vi vf tr rt : Option ℚ) :
    ∀ (children : List Playable) (remaining index : Nat) (s : Schedule),
      remaining ≤ children.length →
      seqChildren ctx s instrument children remaining index at_ childDuration period from_ to_
          v vo vi vf tr rt =
        (List.enumFrom index (children.take remaining)).foldl
          (fun st pr => schedulePart ctx st instrument pr.2
            (at_ + (pr.1 : ℚ) * childDuration) childDuration period from_ to_ v vo vi vf tr rt)
          s := by
  intro children
  induction children with
  | nil =>
      intro remaining index s h
      have h0 : remaining = 0 := by simpa using h
      subst h0
      rfl
  | cons c rest ih =>
      intro remaining index s h
      cases remaining with
      | zero => rfl
      | succ n =>
          rw [List.take_succ_cons, List.enumFrom_cons, List.foldl_cons]
          exact ih n (index + 1) _ (by simpa using h)

/-- C4: a sequence node with `N ≥ 1` non-option children whose merged
options set neither `alternate` nor `chord` evaluates its raw element `i`
(for `i < N`) at start `parentStart + i·(duration/N)` with duration
`duration/N`, inheriting the merged parameters; and the `N` child slices
sum exactly to the parent's duration. -/
theorem c4_cycle_subdivision (ctx : SynthCtx) (s : Schedule) (instrument : Nat)
    (children : List Playable) (at_ duration period from_ to_ : ℚ)
    (v vo vi vf tr rt : Option ℚ) (merged : MergedOptions) (length : Nat)
    (hmerged : mergeOptions children v vo vi vf tr rt = merged)
    (hlength : length = children.length - merged.amountOfOptions)
    (halt : merged.alternate = false) (hchord : merged.chord = false)
    (hN : 0 < length) (hwin : at_ ≤ to_) :
    schedulePart ctx s instrument (.seq children) at_ duration period from_ to_ v vo vi vf tr rt =
      (List.enumFrom 0 (children.take length)).foldl
        (fun st pr => schedulePart ctx st instrument pr.2
          (at_ + (pr.1 : ℚ) * (duration / (length : ℚ))) (duration / (length : ℚ)) period from_
          to_ merged.velocity merged.volume merged.vibrato merged.vibratoFrequency
          merged.transpose merged.root) s ∧
    (List.replicate length (duration / (length : ℚ))).sum = duration := by
  constructor
  · conv_lhs => rw [schedulePart.eq_def]
    rw [if_neg (by rintro ⟨h3, _⟩; exact absurd h3 (not_lt.2 hwin))]
    dsimp only
    rw [hmerged]
    rw [if_neg (by simp [halt]), if_neg (by simp [hchord])]
    rw [← hlength]
    exact seqChildren_eq_foldl ctx instrument at_ _ period from_ to_ merged.velocity
      merged.volume merged.vibrato merged.vibratoFrequency merged.transpose merged.root
      children length 0 s (by omega)
  · rw [List.sum_replicate, nsmul_eq_mul]
    have hne : (length : ℚ) ≠ 0 := Nat.cast_ne_zero.2 (by omega)
    field_simp

theorem c4_cycle_subdivision_witness :
    mergeOptions [Playable.num 1, Playable.num 2] none none none none none none =
      { amountOfOptions := 0, alternate := false, chord := false, velocity := none
        volume := none, vibrato := none, vibratoFrequency := none, transpose := none
        root := none } ∧
    (2 : Nat) = [Playable.num 1, Playable.num 2].length - 0 ∧ (0 : Nat) < 2 ∧ (0 : ℚ) ≤ 2 ∧
      (schedulePart simpleSynth createSchedule 0 (.seq [Playable.num 1, Playable.num 2])
          0 2 0 0 2 none none none none none none =
        (List.enumFrom 0 ([Playable.num 1, Playable.num 2].take 2)).foldl
          (fun st pr => schedulePart simpleSynth st 0 pr.2
            (0 + (pr.1 : ℚ) * (2 / ((2 : Nat) : ℚ))) (2 / ((2 : Nat) : ℚ)) 0 0 2
            none none none none none none) createSchedule ∧
        (List.replicate 2 ((2 : ℚ) / ((2 : Nat) : ℚ))).sum = 2) :=
  ⟨rfl, rfl, by norm_num, by norm_num,
    c4_cycle_subdivision simpleSynth createSchedule 0 [Playable.num 1, Playable.num 2]
      0 2 0 0 2 none none none none none none _ 2 rfl rfl rfl rfl (by norm_num) (by norm_num)⟩

/-! ## C5: alternate selection -/

/-- C5: an array node whose merged options set `alternate` (the `chord`
flag may be set as well — alternate is checked first) evaluates exactly
one raw element: the one at index `round(period) mod N` where `N` is the
number of non-option elements, with the parent's full start time and
duration and the rescaled sub-period `(period − index)/N`; moreover on
whole periods `k` the selected index cycles as `k mod N`. -/
theorem c5_alternate_picks_one (ctx : SynthCtx) (s : Schedule) (instrument : Nat)
    (children : List Playable) (at_ duration period from_ to_ : ℚ)
    (v vo vi vf tr rt : Option ℚ) (merged : MergedOptions) (length : Nat)
    (hmerged : mergeOptions children v vo vi vf tr rt = merged)
    (hlength : length = children.length - merged.amountOfOptions)
    (halt : merged.alternate = true) (hN : 0 < length) (hper : 0 ≤ period) :
    schedulePart ctx s instrument (.seq children) at_ duration period from_ to_ v vo vi vf tr rt =
      schedulePart ctx s instrument
        (children.getD (jsRound period % (length : ℤ)).toNat .undef) at_ duration
        ((period - ((jsRound period % (length : ℤ) : ℤ) : ℚ)) / (length : ℚ)) from_ to_
        merged.velocity merged.volume merged.vibrato merged.vibratoFrequency merged.transpose
        merged.root ∧
    ∀ k : ℕ, (jsRound (k : ℚ) % (length : ℤ)).toNat = k % length := by
  have hlen_pos : (0 : ℤ) < (length : ℤ) := by exact_mod_cast hN
  have htmod : Int.tmod (jsRound period) (length : ℤ) = jsRound period % (length : ℤ) :=
    Int.tmod_eq_emod (jsRound_nonneg period hper) (by positivity)
  have hidx_nonneg : 0 ≤ jsRound period % (length : ℤ) := Int.emod_nonneg _ (by omega)
  have hidx_lt : jsRound period % (length : ℤ) < (length : ℤ) := Int.emod_lt_of_pos _ hlen_pos
  have hlen_le : length ≤ children.length := by
    have := mergeOptions_amount_le children v vo vi vf tr rt
    omega
  constructor
  · by_cases hg : to_ < at_ ∧ s.pendingNote.pending = false
    · have hL : schedulePart ctx s instrument (.seq children) at_ duration period from_ to_
          v vo vi vf tr rt = s := by
        rw [schedulePart.eq_def]
        rw [if_pos hg]
      have hR : schedulePart ctx s instrument
          (children.getD (jsRound period % (length : ℤ)).toNat .undef) at_ duration
          ((period - ((jsRound period % (length : ℤ) : ℤ) : ℚ)) / (length : ℚ)) from_ to_
          merged.velocity merged.volume merged.vibrato merged.vibratoFrequency merged.transpose
          merged.root = s := by
        rw [schedulePart.eq_def]
        rw [if_pos hg]
      rw [hL, hR]
    · conv_lhs => rw [schedulePart.eq_def]
      rw [if_neg hg]
      dsimp only
      rw [hmerged]
      rw [if_pos halt]
      rw [← hlength]
      rw [if_neg (by omega)]
      rw [htmod]
      rw [if_pos hidx_nonneg]
      rw [altChild_eq_getD ctx instrument children _ s at_ duration _ from_ to_
        merged.velocity merged.volume merged.vibrato merged.vibratoFrequency merged.transpose
        merged.root (by omega)]
  · intro k
    rw [jsRound_natCast]
    omega

theorem c5_alternate_picks_one_witness :
    mergeOptions [Playable.num 1, Playable.num 2,
        Playable.options { alternate := true }] none none none none none none =
      { amountOfOptions := 1, alternate := true, chord := false, velocity := none
        volume := none, vibrato := none, vibratoFrequency := none, transpose := none
        root := none } ∧
    (2 : Nat) = [Playable.num 1, Playable.num 2,
        Playable.options { alternate := true }].length - 1 ∧
    (0 : Nat) < 2 ∧ (0 : ℚ) ≤ 3 ∧
      (schedulePart simpleSynth createSchedule 0
          (.seq [Playable.num 1, Playable.num 2, Playable.options { alternate := true }])
          0 1 3 0 1 none none none none none none =
        schedulePart simpleSynth createSchedule 0
          ([Playable.num 1, Playable.num 2,
            Playable.options { alternate := true }].getD (jsRound 3 % (2 : ℤ)).toNat .undef)
          0 1 ((3 - ((jsRound 3 % (2 : ℤ) : ℤ) : ℚ)) / ((2 : Nat) : ℚ)) 0 1
          none none none none none none ∧
        ∀ k : ℕ, (jsRound (k : ℚ) % ((2 : Nat) : ℤ)).toNat = k % 2) :=
  ⟨rfl, rfl, by norm_num, by norm_num,
    c5_alternate_picks_one simpleSynth createSchedule 0
      [Playable.num 1, Playable.num 2, Playable.options { alternate := true }]
      0 1 3 0 1 none none none none none none _ 2 rfl rfl rfl (by norm_num) (by norm_num)⟩

/-! ## C1: stall catch-up machinery -/

/-- A state whose pending note, if any, starts no earlier than `from_`. -/
def WindowSafe (from_ : ℚ) (s : Schedule) : Prop :=
  s.pendingNote.pending = true → from_ ≤ s.pendingNote.at_

/-- Every placement of `r` was either already in `s` or starts no earlier
than `from_`. -/
def DispatchesFrom (from_ : ℚ) (s r : Schedule) : Prop :=
  ∀ pl ∈ r.placements, pl ∈ s.placements ∨ from_ ≤ pl.at_

theorem dispatchesFrom_self (from_ : ℚ) (s : Schedule) : DispatchesFrom from_ s s :=
  fun _ hpl => Or.inl hpl

theorem dispatchesFrom_trans (from_ : ℚ) (s t r : Schedule)
    (h1 : DispatchesFrom from_ s t) (h2 : DispatchesFrom from_ t r) :
    DispatchesFrom from_ s r := by
  intro pl hpl
  rcases h2 pl hpl with h | h
  · exact h1 pl h
  · exact Or.inr h

theorem playPendingNote_safe (ctx : SynthCtx) (s : Schedule) (from_ : ℚ)
    (hp : s.pendingNote.pending = true) (hw : WindowSafe from_ s) :
    WindowSafe from_ (playPendingNote ctx s) ∧
      DispatchesFrom from_ s (playPendingNote ctx s) := by
  constructor
  · intro h
    rw [playPendingNote_pendingNote_pending] at h
    cases h
  · cases hinst : s.pendingNote.instrument with
    | none =>
        intro pl hpl
        left
        simpa [playPendingNote, hinst] using hpl
    | some preset =>
        intro pl hpl
        rw [playPendingNote_placements_of_instrument ctx s preset hinst] at hpl
        rcases List.mem_append.1 hpl with h | h
        · exact Or.inl h
        · right
          have hpl_at : pl.at_ = s.pendingNote.at_ := by
            rcases List.mem_singleton.1 h with rfl
            rfl
          rw [hpl_at]
          exact hw hp

theorem extendPendingNote_safe (s : Schedule) (duration from_ : ℚ) (hw : WindowSafe from_ s) :
    WindowSafe from_ (extendPendingNote s duration) ∧
      DispatchesFrom from_ s (extendPendingNote s duration) := by
  constructor
  · intro h
    rw [extendPendingNote_pendingNote_pending] at h
    have hat : (extendPendingNote s duration).pendingNote.at_ = s.pendingNote.at_ := by
      unfold extendPendingNote
      split <;> rfl
    rw [hat]
    exact hw h
  · intro pl hpl
    rw [extendPendingNote_placements] at hpl
    exact Or.inl hpl

mutual

theorem schedulePart_safe (ctx : SynthCtx) (s : Schedule) (instrument : Nat)
    (playable : Playable) (at_ duration period from_ to_ : ℚ) (v vo vi vf tr rt : Option ℚ)
    (hw : WindowSafe from_ s) :
    WindowSafe from_ (schedulePart ctx s instrument playable at_ duration period from_ to_
      v vo vi vf tr rt) ∧
    DispatchesFrom from_ s (schedulePart ctx s instrument playable at_ duration period from_ to_
      v vo vi vf tr rt) := by
  rw [schedulePart.eq_def]
  split
  · exact ⟨hw, dispatchesFrom_self from_ s⟩
  · cases playable with
    | num value =>
        dsimp only
        by_cases hfrom : at_ < from_
        · rw [if_pos hfrom]
          exact ⟨hw, dispatchesFrom_self from_ s⟩
        · rw [if_neg hfrom]
          by_cases hp : s.pendingNote.pending = true
          · rw [if_pos hp]
            have hps := playPendingNote_safe ctx s from_ hp hw
            by_cases hto : to_ < at_
            · rw [if_pos hto]
              exact hps
            · rw [if_neg hto]
              exact ⟨fun _ => not_lt.1 hfrom, fun pl hpl => hps.2 pl hpl⟩
          · rw [if_neg hp]
            by_cases hto : to_ < at_
            · rw [if_pos hto]
              exact ⟨hw, dispatchesFrom_self from_ s⟩
            · rw [if_neg hto]
              exact ⟨fun _ => not_lt.1 hfrom, fun pl hpl => Or.inl hpl⟩
    | rest =>
        dsimp only
        by_cases hp : s.pendingNote.pending = true
        · rw [if_pos hp]
          exact playPendingNote_safe ctx s from_ hp hw
        · rw [if_neg hp]
          exact ⟨hw, dispatchesFrom_self from_ s⟩
    | undef => exact extendPendingNote_safe s duration from_ hw
    | options o => exact ⟨hw, dispatchesFrom_self from_ s⟩
    | unknown => exact ⟨hw, dispatchesFrom_self from_ s⟩
    | seq children =>
        dsimp only
        split
        · split
          · exact extendPendingNote_safe s duration from_ hw
          · split
            · exact altChild_safe ctx s instrument children _ at_ duration _ from_ to_
                _ _ _ _ _ _ hw
            · exact extendPendingNote_safe s duration from_ hw
        · split
          · exact chordChildren_safe ctx s instrument children _ at_ duration period from_ to_
              _ _ _ _ _ _ hw
          · exact seqChildren_safe ctx s instrument children _ 0 at_ _ period from_ to_
              _ _ _ _ _ _ hw

theorem altChild_safe (ctx : SynthCtx) (s : Schedule) (instrument : Nat)
    (children : List Playable) (index : Nat) (at_ duration childPeriod from_ to_ : ℚ)
    (v vo vi vf tr rt : Option ℚ) (hw : WindowSafe from_ s) :
    WindowSafe from_ (altChild ctx s instrument children index at_ duration childPeriod from_
      to_ v vo vi vf tr rt) ∧
    DispatchesFrom from_ s (altChild ctx s instrument children index at_ duration childPeriod
      from_ to_ v vo vi vf tr rt) := by
  cases children with
  | nil => exact extendPendingNote_safe s duration from_ hw
  | cons c restChildren =>
      cases index with
      | zero =>
          exact schedulePart_safe ctx s instrument c at_ duration childPeriod from_ to_
            v vo vi vf tr rt hw
      | succ n =>
          exact altChild_safe ctx s instrument restChildren n at_ duration childPeriod from_ to_
            v vo vi vf tr rt hw

theorem chordChildren_safe (ctx : SynthCtx) (s : Schedule) (instrument : Nat)
    (children : List Playable) (remaining : Nat) (at_ duration period from_ to_ : ℚ)
    (v vo vi vf tr rt : Option ℚ) (hw : WindowSafe from_ s) :
    WindowSafe from_ (chordChildren ctx s instrument children remaining at_ duration period
      from_ to_ v vo vi vf tr rt) ∧
    DispatchesFrom from_ s (chordChildren ctx s instrument children remaining at_ duration
      period from_ to_ v vo vi vf tr rt) := by
  cases children with
  | nil =>
      cases remaining with
      | zero => exact ⟨hw, dispatchesFrom_self from_ s⟩
      | succ n => exact ⟨hw, dispatchesFrom_self from_ s⟩
  | cons c restChildren =>
      cases remaining with
      | zero => exact ⟨hw, dispatchesFrom_self from_ s⟩
      | succ n =>
          have h1 := schedulePart_safe ctx s instrument c at_ duration period from_ to_
            v vo vi vf tr rt hw
          have h2 := chordChildren_safe ctx
            (schedulePart ctx s instrument c at_ duration period from_ to_ v vo vi vf tr rt)
            instrument restChildren n at_ duration period from_ to_ v vo vi vf tr rt h1.1
          exact ⟨h2.1, dispatchesFrom_trans from_ s _ _ h1.2 h2.2⟩

theorem seqChildren_safe (ctx : SynthCtx) (s : Schedule) (instrument : Nat)
    (children : List Playable) (remaining index : Nat) (at_ childDuration period from_ to_ : ℚ)
    (v vo vi vf tr rt : Option ℚ) (hw : WindowSafe from_ s) :
    WindowSafe from_ (seqChildren ctx s instrument children remaining index at_ childDuration
      period from_ to_ v vo vi vf tr rt) ∧
    DispatchesFrom from_ s (seqChildren ctx s instrument children remaining index at_
      childDuration period from_ to_ v vo vi vf tr rt) := by
  cases children with
  | nil =>
      cases remaining with
      | zero => exact ⟨hw, dispatchesFrom_self from_ s⟩
      | succ n => exact ⟨hw, dispatchesFrom_self from_ s⟩
  | cons c restChildren =>
      cases remaining with
      | zero => exact ⟨hw, dispatchesFrom_self from_ s⟩
      | succ n =>
          have h1 := schedulePart_safe ctx s instrument c (at_ + (index : ℚ) * childDuration)
            childDuration period from_ to_ v vo vi vf tr rt hw
          have h2 := seqChildren_safe ctx
            (schedulePart ctx s instrument c (at_ + (index : ℚ) * childDuration) childDuration
              period from_ to_ v vo vi vf tr rt)
            instrument restChildren n (index + 1) at_ childDuration period from_ to_
            v vo vi vf tr rt h1.1
          exact ⟨h2.1, dispatchesFrom_trans from_ s _ _ h1.2 h2.2⟩

end

theorem catchUp_placements (s : Schedule) (currentTime playAhead : ℚ) :
    (catchUp s currentTime playAhead).placements = s.placements := by
  unfold catchUp
  split <;> rfl

theorem getOrCreateInstrument_pendingNote (s : Schedule) (preset : Nat) :
    (getOrCreateInstrument s preset).pendingNote = s.pendingNote := by
  unfold getOrCreateInstrument
  split <;> rfl

theorem getOrCreateInstrument_placements (s : Schedule) (preset : Nat) :
    (getOrCreateInstrument s preset).placements = s.placements := by
  unfold getOrCreateInstrument
  split <;> rfl

theorem scheduleTrackGo_safe (ctx : SynthCtx) (preset : Nat) (sequence : Playable)
    (cycle from_ to_ : ℚ) (cyclesToCheck : Nat) :
    ∀ (budget checkedCycles : Nat) (s r : Schedule), WindowSafe from_ s →
      scheduleTrackGo ctx preset sequence cycle from_ to_ cyclesToCheck budget checkedCycles s =
        Except.ok r →
      WindowSafe from_ r ∧ DispatchesFrom from_ s r := by
  intro budget
  induction budget with
  | zero =>
      intro checked s r hw h
      unfold scheduleTrackGo at h
      by_cases hc : checked < cyclesToCheck ∨ s.pendingNote.pending = true
      · rw [if_pos hc] at h
        simp at h
      · rw [if_neg hc] at h
        cases h
        exact ⟨hw, dispatchesFrom_self from_ s⟩
  | succ b ih =>
      intro checked s r hw h
      unfold scheduleTrackGo at h
      by_cases hc : checked < cyclesToCheck ∨ s.pendingNote.pending = true
      · rw [if_pos hc] at h
        have hps := schedulePart_safe ctx s preset sequence
          (((⌊from_ / cycle⌋ + (checked : ℤ) : ℤ) : ℚ) * cycle) cycle
          ((((⌊from_ / cycle⌋ + (checked : ℤ) : ℤ) : ℚ) * cycle) / cycle) from_ to_
          none none none none none none hw
        have hrec := ih (checked + 1) _ r hps.1 h
        exact ⟨hrec.1, dispatchesFrom_trans from_ s _ r hps.2 hrec.2⟩
      · rw [if_neg hc] at h
        cases h
        exact ⟨hw, dispatchesFrom_self from_ s⟩

theorem scheduleTracks_safe (ctx : SynthCtx) (cycle from_ to_ : ℚ) (cyclesToCheck : Nat) :
    ∀ (tracks : List (Option Nat × Playable)) (s r : Schedule), WindowSafe from_ s →
      scheduleTracks ctx tracks cycle from_ to_ cyclesToCheck s = Except.ok r →
      WindowSafe from_ r ∧ DispatchesFrom from_ s r := by
  intro tracks
  induction tracks with
  | nil =>
      intro s r hw h
      unfold scheduleTracks at h
      cases h
      exact ⟨hw, dispatchesFrom_self from_ s⟩
  | cons track rest ih =>
      intro s r hw h
      obtain ⟨preset?, sequence⟩ := track
      cases preset? with
      | none =>
          unfold scheduleTracks at h
          exact ih s r hw h
      | some preset =>
          unfold scheduleTracks at h
          split at h
          · simp at h
          · next s2 htg =>
              have hw1 : WindowSafe from_ (getOrCreateInstrument s preset) := by
                intro hcon
                rw [getOrCreateInstrument_pendingNote] at hcon
                rw [getOrCreateInstrument_pendingNote]
                exact hw hcon
              have hgo := scheduleTrackGo_safe ctx preset sequence cycle from_ to_ cyclesToCheck
                64 0 _ s2 hw1 htg
              have hrec := ih s2 r hgo.1 h
              refine ⟨hrec.1, ?_⟩
              refine dispatchesFrom_trans from_ s s2 r ?_ hrec.2
              refine dispatchesFrom_trans from_ s (getOrCreateInstrument s preset) s2 ?_ hgo.2
              intro pl hpl
              rw [getOrCreateInstrument_placements] at hpl
              exact Or.inl hpl

theorem runTracksAndSweep_safe (ctx : SynthCtx) (tracks : List (Option Nat × Playable))
    (cycle from_ to_ : ℚ) (cyclesToCheck : Nat) (s r : Schedule) (hw : WindowSafe from_ s)
    (h : runTracksAndSweep ctx tracks cycle from_ to_ cyclesToCheck s = Except.ok r) :
    DispatchesFrom from_ s r := by
  unfold runTracksAndSweep at h
  split at h
  · simp at h
  · next s3 hts =>
      cases h
      have := scheduleTracks_safe ctx cycle from_ to_ cyclesToCheck tracks s s3 hw hts
      intro pl hpl
      exact this.2 pl hpl

/-- C1: on an invocation of `scheduleMusic` on a running context where
`scheduledUpTo < currentTime`, the catch-up step sets `scheduledUpTo` to
exactly `currentTime + playAhead` regardless of how far behind it was, and
no note whose start lies in the skipped gap `[old scheduledUpTo,
currentTime)` is dispatched by that invocation: every placement is either
pre-existing or starts at or after `currentTime`. -/
theorem c1_catch_up (ctx : SynthCtx) (tracks : List (Option Nat × Playable))
    (cycle currentTime : ℚ) (hidden : Bool) (playAhead : ℚ) (s s' : Schedule)
    (hpa : 0 ≤ playAhead) (hbehind : s.scheduledUpTo < currentTime)
    (hpend : s.pendingNote.pending = false)
    (hok : scheduleMusic ctx tracks cycle currentTime true hidden playAhead s = Except.ok s') :
    (catchUp s currentTime playAhead).scheduledUpTo = currentTime + playAhead ∧
    ∀ pl ∈ s'.placements, pl ∈ s.placements ∨ currentTime ≤ pl.at_ := by
  have hcu : (catchUp s currentTime playAhead).scheduledUpTo = currentTime + playAhead := by
    unfold catchUp
    rw [if_pos hbehind]
    show s.scheduledUpTo + (currentTime + playAhead - s.scheduledUpTo) = _
    ring
  refine ⟨hcu, ?_⟩
  unfold scheduleMusic at hok
  rw [if_neg (by simp)] at hok
  by_cases hb : (catchUp s currentTime playAhead).scheduledUpTo <
      currentTime + (if hidden then 1 + playAhead else playAhead)
  · rw [if_pos hb] at hok
    have hw2 : WindowSafe ((catchUp s currentTime playAhead).scheduledUpTo)
        { catchUp s currentTime playAhead with
          scheduledUpTo := currentTime + (if hidden then 1 + playAhead else playAhead) } := by
      intro hcon
      have : (catchUp s currentTime playAhead).pendingNote.pending = true := hcon
      rw [catchUp_pendingNote, hpend] at this
      cases this
    have hsafe := runTracksAndSweep_safe ctx tracks cycle
      ((catchUp s currentTime playAhead).scheduledUpTo)
      (currentTime + (if hidden then 1 + playAhead else playAhead)) _ _ s' hw2 hok
    intro pl hpl
    rcases hsafe pl hpl with h | h
    · left
      have : ({ catchUp s currentTime playAhead with
          scheduledUpTo := currentTime + (if hidden then 1 + playAhead else playAhead) } :
            Schedule).placements = s.placements := by
        rw [show ({ catchUp s currentTime playAhead with
          scheduledUpTo := currentTime + (if hidden then 1 + playAhead else playAhead) } :
            Schedule).placements = (catchUp s currentTime playAhead).placements from rfl]
        exact catchUp_placements s currentTime playAhead
      rwa [this] at h
    · right
      rw [hcu] at h
      linarith
  · rw [if_neg hb] at hok
    cases hok
    intro pl hpl
    left
    rwa [catchUp_placements] at hpl

theorem c1_catch_up_witness :
    (0 : ℚ) ≤ 1 ∧ createSchedule.scheduledUpTo < 1 ∧
      createSchedule.pendingNote.pending = false ∧
      scheduleMusic simpleSynth [] 1 1 true false 1 createSchedule =
        Except.ok (catchUp createSchedule 1 1) ∧
      ((catchUp createSchedule 1 1).scheduledUpTo = 1 + 1 ∧
        ∀ pl ∈ (catchUp createSchedule 1 1).placements,
          pl ∈ createSchedule.placements ∨ (1 : ℚ) ≤ pl.at_) :=
  ⟨by norm_num, by norm_num [createSchedule], rfl,
    by norm_num [scheduleMusic, catchUp, createSchedule],
    c1_catch_up simpleSynth [] 1 1 false 1 createSchedule (catchUp createSchedule 1 1)
      (by norm_num) (by norm_num [createSchedule]) rfl
      (by norm_num [scheduleMusic, catchUp, createSchedule])⟩

/-! ## C8: eviction of inactive voices -/

theorem runTracksAndSweep_ok_evicted (ctx : SynthCtx) (tracks : List (Option Nat × Playable))
    (cycle from_ to_ : ℚ) (cyclesToCheck : Nat) (s r : Schedule)
    (h : runTracksAndSweep ctx tracks cycle from_ to_ cyclesToCheck s = Except.ok r) :
    ∀ entry ∈ r.instruments, entry.2 ≠ [] ∧
      ∀ inst ∈ entry.2, r.scheduledUpTo - inst.willPlayUntil ≤ cycle * 2 := by
  unfold runTracksAndSweep at h
  split at h
  · simp at h
  · next s3 hts =>
      cases h
      intro entry hentry
      unfold destroyInactiveInstances at hentry
      simp only [List.mem_filter, List.mem_map] at hentry
      obtain ⟨⟨e0, he0, rfl⟩, hne⟩ := hentry
      constructor
      · intro hnil
        rw [hnil] at hne
        simp at hne
      · intro inst hinst
        have hmem := List.of_mem_filter hinst
        exact of_decide_eq_true hmem

/-- C8: whenever a `scheduleMusic` invocation on a running context enters
the scheduling branch and returns without throwing, the eviction pass has
destroyed every voice instance whose `willPlayUntil` lags the
post-invocation `scheduledUpTo` by more than `2 × cycle` and removed
instruments left with no instances: in the resulting state every remaining
instrument entry is non-empty and every retained instance is within the
two-cycle grace of `scheduledUpTo`. -/
theorem c8_eviction (ctx : SynthCtx) (tracks : List (Option Nat × Playable))
    (cycle currentTime : ℚ) (hidden : Bool) (playAhead : ℚ) (s s' : Schedule)
    (hbranch : (catchUp s currentTime playAhead).scheduledUpTo <
      currentTime + (if hidden then 1 + playAhead else playAhead))
    (hok : scheduleMusic ctx tracks cycle currentTime true hidden playAhead s = Except.ok s') :
    ∀ entry ∈ s'.instruments, entry.2 ≠ [] ∧
      ∀ inst ∈ entry.2, s'.scheduledUpTo - inst.willPlayUntil ≤ cycle * 2 := by
  unfold scheduleMusic at hok
  rw [if_neg (by simp)] at hok
  rw [if_pos hbranch] at hok
  exact runTracksAndSweep_ok_evicted ctx tracks cycle _ _ _ _ s' hok

/-- A schedule holding one long-idle voice instance, as left behind by
earlier playback. -/
def staleSchedule : Schedule :=
  { createSchedule with
    instruments := [(0, [{ id := 0, willPlayUntil := -10, previousPitch := 440 }])] }

/-- The state `staleSchedule` reaches after one invocation at time 0: the
stale voice is destroyed and its instrument entry dropped. -/
def sweptSchedule : Schedule :=
  { staleSchedule with scheduledUpTo := 1, instruments := [] }

theorem c8_eviction_witness :
    (catchUp staleSchedule 0 1).scheduledUpTo < 0 + (if false then 1 + (1 : ℚ) else 1) ∧
      scheduleMusic simpleSynth [] 1 0 true false 1 staleSchedule = Except.ok sweptSchedule ∧
      ∀ entry ∈ sweptSchedule.instruments, entry.2 ≠ [] ∧
        ∀ inst ∈ entry.2, sweptSchedule.scheduledUpTo - inst.willPlayUntil ≤ 1 * 2 :=
  ⟨by norm_num [catchUp, staleSchedule, createSchedule],
    by norm_num [scheduleMusic, catchUp, staleSchedule, createSchedule, scheduleTracks,
      runTracksAndSweep, destroyInactiveInstances, sweptSchedule],
    c8_eviction simpleSynth [] 1 0 false 1 staleSchedule sweptSchedule
      (by norm_num [catchUp, staleSchedule, createSchedule])
      (by norm_num [scheduleMusic, catchUp, staleSchedule, createSchedule, scheduleTracks,
        runTracksAndSweep, destroyInactiveInstances, sweptSchedule])⟩

/-! ## Stepwise equations for the per-track cycle walk -/

theorem scheduleTrackGo_throw (ctx : SynthCtx) (preset : Nat) (sequence : Playable)
    (cycle from_ to_ : ℚ) (cyclesToCheck checkedCycles : Nat) (s : Schedule)
    (h : checkedCycles < cyclesToCheck ∨ s.pendingNote.pending = true) :
    scheduleTrackGo ctx preset sequence cycle from_ to_ cyclesToCheck 0 checkedCycles s =
      Except.error capMessage := by
  unfold scheduleTrackGo
  rw [if_pos h]

theorem scheduleTrackGo_step (ctx : SynthCtx) (preset : Nat) (sequence : Playable)
    (cycle from_ to_ : ℚ) (cyclesToCheck b checkedCycles : Nat) (s : Schedule)
    (cycleStartedAt period : ℚ)
    (h : checkedCycles < cyclesToCheck ∨ s.pendingNote.pending = true)
    (hcs : ((⌊from_ / cycle⌋ + (checkedCycles : ℤ) : ℤ) : ℚ) * cycle = cycleStartedAt)
    (hper : cycleStartedAt / cycle = period) :
    scheduleTrackGo ctx preset sequence cycle from_ to_ cyclesToCheck (b + 1) checkedCycles s =
      scheduleTrackGo ctx preset sequence cycle from_ to_ cyclesToCheck b (checkedCycles + 1)
        (schedulePart ctx s preset sequence cycleStartedAt cycle period from_ to_
          none none none none none none) := by
  conv_lhs => rw [scheduleTrackGo.eq_def]
  rw [if_pos h]
  dsimp only
  rw [hcs, hper]

theorem scheduleTrackGo_done (ctx : SynthCtx) (preset : Nat) (sequence : Playable)
    (cycle from_ to_ : ℚ) (cyclesToCheck budget checkedCycles : Nat) (s : Schedule)
    (h : ¬(checkedCycles < cyclesToCheck ∨ s.pendingNote.pending = true)) :
    scheduleTrackGo ctx preset sequence cycle from_ to_ cyclesToCheck budget checkedCycles s =
      Except.ok s := by
  unfold scheduleTrackGo
  rw [if_neg h]

theorem scheduleTracks_single_ok (ctx : SynthCtx) (preset : Nat) (sequence : Playable)
    (cycle from_ to_ : ℚ) (cyclesToCheck : Nat) (s s2 : Schedule)
    (h : scheduleTrackGo ctx preset sequence cycle from_ to_ cyclesToCheck 64 0
      (getOrCreateInstrument s preset) = Except.ok s2) :
    scheduleTracks ctx [(some preset, sequence)] cycle from_ to_ cyclesToCheck s =
      Except.ok s2 := by
  unfold scheduleTracks
  rw [h]
  rfl

theorem runTracksAndSweep_ok (ctx : SynthCtx) (tracks : List (Option Nat × Playable))
    (cycle from_ to_ : ℚ) (cyclesToCheck : Nat) (s s3 : Schedule)
    (h : scheduleTracks ctx tracks cycle from_ to_ cyclesToCheck s = Except.ok s3) :
    runTracksAndSweep ctx tracks cycle from_ to_ cyclesToCheck s =
      Except.ok (destroyInactiveInstances s3 cycle) := by
  unfold runTracksAndSweep
  rw [h]

/-! ## C2: window-boundary semantics of the concrete scenario -/

/-- The state from which the single track of the concrete scenario is
walked: the fresh schedule, claimed up to `to = 1/5`, with the track's
instrument registered. -/
def c2Start : Schedule :=
  { scheduledUpTo := 1/5
    instruments := [(0, [])]
    pendingNote :=
      { pending := false, instrument := none, note := 0, root := 0, at_ := 0, duration := 0
        velocity := none, volume := none, vibrato := none, vibratoFrequency := none }
    nextId := 0
    placements := [] }

/-- The state after walking cycle 0 of the concrete scenario: pitch 0
dispatched at 0 and pitch 1 left pending at `1/10`. -/
def c2AfterCycle0 : Schedule :=
  { scheduledUpTo := 1/5
    instruments := [(0, [{ id := 0, willPlayUntil := 1/10, previousPitch := 0 }])]
    pendingNote :=
      { pending := true, instrument := some 0, note := 1, root := 0, at_ := 1/10
        duration := 1/10
        velocity := none, volume := none, vibrato := none, vibratoFrequency := none }
    nextId := 1
    placements :=
      [{ instrument := 0, note := 0, root := 0, at_ := 0, duration := 1/10
         velocity := none, volume := none, vibrato := none, vibratoFrequency := none }] }

/-- The state after walking cycle 1 of the concrete scenario: the pending
pitch 1 flushed, a third note (pitch 0 at exactly `to = 1/5`) opened and
then flushed when its successor (out of window) is reached. -/
def c2Final : Schedule :=
  { scheduledUpTo := 1/5
    instruments := [(0, [{ id := 0, willPlayUntil := 3/10, previousPitch := 0 }])]
    pendingNote :=
      { pending := false, instrument := some 0, note := 0, root := 0, at_ := 1/5
        duration := 1/10
        velocity := none, volume := none, vibrato := none, vibratoFrequency := none }
    nextId := 1
    placements :=
      [{ instrument := 0, note := 0, root := 0, at_ := 0, duration := 1/10
         velocity := none, volume := none, vibrato := none, vibratoFrequency := none },
       { instrument := 0, note := 1, root := 0, at_ := 1/10, duration := 1/10
         velocity := none, volume := none, vibrato := none, vibratoFrequency := none },
       { instrument := 0, note := 0, root := 0, at_ := 1/5, duration := 1/10
         velocity := none, volume := none, vibrato := none, vibratoFrequency := none }] }

set_option maxHeartbeats 1000000 in
theorem c2_cycle0 :
    schedulePart simpleSynth c2Start 0 (Playable.seq [Playable.num 0, Playable.num 1])
      0 (1/5) 0 0 (1/5) none none none none none none = c2AfterCycle0 := by
  norm_num [schedulePart, seqChildren, mergeOptions, mergeOptionsStep, playPendingNote,
    extendPendingNote, lookupInstrument, updateInstrument, findFreeInstance, createInstance,
    playInstance, simpleSynth, c2Start, c2AfterCycle0]

set_option maxHeartbeats 1000000 in
theorem c2_cycle1 :
    schedulePart simpleSynth c2AfterCycle0 0 (Playable.seq [Playable.num 0, Playable.num 1])
      (1/5) (1/5) 1 0 (1/5) none none none none none none = c2Final := by
  norm_num [schedulePart, seqChildren, mergeOptions, mergeOptionsStep, playPendingNote,
    extendPendingNote, lookupInstrument, updateInstrument, findFreeInstance, createInstance,
    playInstance, simpleSynth, c2AfterCycle0, c2Final]

theorem c2_walk :
    scheduleTrackGo simpleSynth 0 (Playable.seq [Playable.num 0, Playable.num 1])
      (1/5) 0 (1/5) 1 64 0 c2Start = Except.ok c2Final := by
  rw [show (64 : ℕ) = 63 + 1 from rfl]
  rw [scheduleTrackGo_step simpleSynth 0 (Playable.seq [Playable.num 0, Playable.num 1])
    (1/5) 0 (1/5) 1 63 0 c2Start 0 0 (Or.inl (by norm_num)) (by norm_num) (by norm_num)]
  rw [c2_cycle0]
  rw [show (63 : ℕ) = 62 + 1 from rfl, show (0 : ℕ) + 1 = 1 from rfl]
  rw [scheduleTrackGo_step simpleSynth 0 (Playable.seq [Playable.num 0, Playable.num 1])
    (1/5) 0 (1/5) 1 62 1 c2AfterCycle0 (1/5) 1 (Or.inr (by rfl))
    (by push_cast; norm_num) (by norm_num)]
  rw [c2_cycle1]
  exact scheduleTrackGo_done simpleSynth 0 (Playable.seq [Playable.num 0, Playable.num 1])
    (1/5) 0 (1/5) 1 62 (1 + 1) c2Final (by norm_num [c2Final])

theorem c2_run :
    scheduleMusic simpleSynth [(some 0, Playable.seq [Playable.num 0, Playable.num 1])] (1/5)
        0 true false (1/5) createSchedule =
      Except.ok (destroyInactiveInstances c2Final (1/5)) := by
  unfold scheduleMusic
  rw [if_neg (by simp)]
  rw [if_pos (by norm_num [catchUp, createSchedule])]
  apply runTracksAndSweep_ok
  apply scheduleTracks_single_ok
  norm_num [getOrCreateInstrument, lookupInstrument, catchUp, createSchedule]
  exact c2_walk

/-- Full evaluation of the spec's concrete scenario: track `[0, 1]`, cycle
`1/5`, one invocation of `scheduleMusic` at time 0 with `playAhead = 1/5`
on a fresh schedule, so the window is `from = 0`, `to = 1/5`. Three notes
are dispatched: the `at > to` comparisons of `schedulePart` are strict, so
the note starting exactly at `to` is opened (and flushed while the walk
finishes the second cycle it entered to resolve the pending note). -/
theorem c2_scenario_eval :
    (scheduleMusic simpleSynth [(some 0, Playable.seq [Playable.num 0, Playable.num 1])] (1/5)
        0 true false (1/5) createSchedule).map (fun s => s.placements) =
      Except.ok
        [{ instrument := 0, note := 0, root := 0, at_ := 0, duration := 1/10
           velocity := none, volume := none, vibrato := none, vibratoFrequency := none },
         { instrument := 0, note := 1, root := 0, at_ := 1/10, duration := 1/10
           velocity := none, volume := none, vibrato := none, vibratoFrequency := none },
         { instrument := 0, note := 0, root := 0, at_ := 1/5, duration := 1/10
           velocity := none, volume := none, vibrato := none, vibratoFrequency := none }] := by
  rw [c2_run]
  rfl

/-- C2 counterexample: scheduling track `[0, 1]` with cycle `1/5` over the
window `from = 0`, `to = 1/5` does NOT dispatch exactly the two claimed
notes (pitch 0 at 0 and pitch 1 at 1/10): a terminal number starting
exactly at `to` is not discarded — the comparison on `src/schedule.js`
line 159 is strict — so a third note (pitch 0 at `t = 1/5`) is also
dispatched. -/
theorem c2_counterexample :
    (scheduleMusic simpleSynth [(some 0, Playable.seq [Playable.num 0, Playable.num 1])] (1/5)
        0 true false (1/5) createSchedule).map (fun s => s.placements) ≠
      Except.ok
        [{ instrument := 0, note := 0, root := 0, at_ := 0, duration := 1/10
           velocity := none, volume := none, vibrato := none, vibratoFrequency := none },
         { instrument := 0, note := 1, root := 0, at_ := 1/10, duration := 1/10
           velocity := none, volume := none, vibrato := none, vibratoFrequency := none }] := by
  intro hcon
  rw [c2_scenario_eval] at hcon
  have hlist := Except.ok.inj hcon
  have hlen := congrArg List.length hlist
  simp only [List.length_cons, List.length_nil] at hlen
  omega

/-- C2 (amended): a terminal number is discarded only when its start is
strictly after the window end (`at > to`), so the window is effectively
closed on the right and a note starting exactly at `to` is opened;
consequently the concrete scenario dispatches three notes: pitch 0 at 0
(duration 1/10), pitch 1 at 1/10 (duration 1/10), and pitch 0 at 1/5
(duration 1/10). -/
theorem c2_closed_window_three_notes :
    (scheduleMusic simpleSynth [(some 0, Playable.seq [Playable.num 0, Playable.num 1])] (1/5)
        0 true false (1/5) createSchedule).map (fun s => s.placements) =
      Except.ok
        [{ instrument := 0, note := 0, root := 0, at_ := 0, duration := 1/10
           velocity := none, volume := none, vibrato := none, vibratoFrequency := none },
         { instrument := 0, note := 1, root := 0, at_ := 1/10, duration := 1/10
           velocity := none, volume := none, vibrato := none, vibratoFrequency := none },
         { instrument := 0, note := 0, root := 0, at_ := 1/5, duration := 1/10
           velocity := none, volume := none, vibrato := none, vibratoFrequency := none }] :=
  c2_scenario_eval

/-! ## C9: the cycle-walk cap throws on a never-resolving tie -/

/-- A track whose tie never resolves within the cycle cap: an alternate
node that opens note 5 on period 0 and then selects an extend marker on
each of the following 64 periods. -/
def infiniteTieTrack : Playable :=
  .seq (.num 5 :: (List.replicate 64 .undef ++ [.options { alternate := true }]))

theorem infiniteTieTrack_no_options_part :
    ∀ p ∈ Playable.num 5 :: List.replicate 64 Playable.undef, isOptionRecord p = false := by
  intro p hp
  rcases List.mem_cons.1 hp with h | h
  · rw [h]
    rfl
  · rw [List.eq_of_mem_replicate h]
    rfl

theorem infiniteTieTrack_merge (v vo vi vf tr rt : Option ℚ) :
    mergeOptions (Playable.num 5 :: (List.replicate 64 Playable.undef ++
        [Playable.options { alternate := true }])) v vo vi vf tr rt =
      { amountOfOptions := 1, alternate := true, chord := false
        velocity := v, volume := vo, vibrato := vi, vibratoFrequency := vf
        transpose := tr, root := rt } := by
  unfold mergeOptions
  rw [show Playable.num 5 :: (List.replicate 64 Playable.undef ++
      [Playable.options { alternate := true }]) =
      (Playable.num 5 :: List.replicate 64 Playable.undef) ++
      [Playable.options { alternate := true }] from rfl]
  rw [List.foldl_append]
  rw [foldl_mergeOptionsStep_no_options _ infiniteTieTrack_no_options_part]
  rfl

theorem infiniteTieTrack_length :
    (Playable.num 5 :: (List.replicate 64 Playable.undef ++
      [Playable.options { alternate := true }])).length - 1 = 65 := by
  simp

theorem infiniteTieTrack_extends (ctx : SynthCtx) (s : Schedule) (k : ℕ)
    (h1 : 1 ≤ k) (h2 : k ≤ 64) (hp : s.pendingNote.pending = true) :
    schedulePart ctx s 0 infiniteTieTrack (k : ℚ) 1 (k : ℚ) 0 (1/5)
      none none none none none none =
      { s with pendingNote :=
        { s.pendingNote with duration := s.pendingNote.duration + 1 } } := by
  obtain ⟨j, rfl⟩ : ∃ j, k = j + 1 := ⟨k - 1, by omega⟩
  unfold infiniteTieTrack
  conv_lhs => rw [schedulePart.eq_def]
  rw [if_neg (by rintro ⟨h3, h4⟩; rw [hp] at h4; exact Bool.noConfusion h4)]
  dsimp only
  rw [infiniteTieTrack_merge]
  dsimp only
  rw [if_pos rfl]
  rw [infiniteTieTrack_length]
  rw [if_neg (show (65 : ℕ) ≠ 0 by norm_num)]
  have hidx : Int.tmod (jsRound ((j + 1 : ℕ) : ℚ)) ((65 : ℕ) : ℤ) = ((j + 1 : ℕ) : ℤ) := by
    rw [jsRound_natCast, Int.tmod_eq_emod (by positivity) (by positivity)]
    exact Int.emod_eq_of_lt (by positivity) (by exact_mod_cast (by omega : j + 1 < 65))
  rw [hidx]
  rw [if_pos (by positivity)]
  rw [Int.toNat_natCast]
  have hrest := altChild_replicate_undef ctx 0 [Playable.options { alternate := true }] 64 j
    (by omega) s ((j + 1 : ℕ) : ℚ) 1
    ((((j + 1 : ℕ) : ℚ) - ((((j + 1 : ℕ) : ℤ)) : ℚ)) / ((65 : ℕ) : ℚ)) 0 (1/5)
    none none none none none none
  have hfinal : extendPendingNote s 1 =
      { s with pendingNote :=
        { s.pendingNote with duration := s.pendingNote.duration + 1 } } := by
    unfold extendPendingNote
    rw [if_pos hp]
  exact hrest.trans hfinal

theorem infiniteTieTrack_opens (ctx : SynthCtx) (s : Schedule)
    (hp : s.pendingNote.pending = false) :
    schedulePart ctx s 0 infiniteTieTrack 0 1 0 0 (1/5) none none none none none none =
      { s with pendingNote :=
        { pending := true, instrument := some 0, note := 5 + Option.getD none 0
          root := Option.getD none 0, at_ := 0, duration := 1
          velocity := none, volume := none, vibrato := none, vibratoFrequency := none } } := by
  unfold infiniteTieTrack
  conv_lhs => rw [schedulePart.eq_def]
  rw [if_neg (by rintro ⟨h3, h4⟩; norm_num at h3)]
  dsimp only
  rw [infiniteTieTrack_merge]
  dsimp only
  rw [if_pos rfl]
  rw [infiniteTieTrack_length]
  rw [if_neg (show (65 : ℕ) ≠ 0 by norm_num)]
  have hidx : Int.tmod (jsRound (0 : ℚ)) ((65 : ℕ) : ℤ) = ((0 : ℕ) : ℤ) := by
    rw [show (0 : ℚ) = ((0 : ℕ) : ℚ) by norm_num, jsRound_natCast]
    rfl
  rw [hidx]
  rw [if_pos (by positivity)]
  rw [Int.toNat_natCast]
  have hopen := schedulePart_num_open ctx s 0 5 0 1
    (((0 : ℚ) - ((((0 : ℕ) : ℤ)) : ℚ)) / ((65 : ℕ) : ℚ)) 0 (1/5)
    none none none none none none hp (le_refl 0) (by norm_num)
  exact hopen

theorem infiniteTie_loop_throws (ctx : SynthCtx) :
    ∀ (b k : ℕ) (s : Schedule), k = 64 - b → 1 ≤ k → s.pendingNote.pending = true →
      scheduleTrackGo ctx 0 infiniteTieTrack 1 0 (1/5) 1 b k s = Except.error capMessage := by
  intro b
  induction b with
  | zero =>
      intro k s hk h1 hp
      exact scheduleTrackGo_throw ctx 0 infiniteTieTrack 1 0 (1/5) 1 k s (Or.inr hp)
  | succ b ih =>
      intro k s hk h1 hp
      rw [scheduleTrackGo_step ctx 0 infiniteTieTrack 1 0 (1/5) 1 b k s (k : ℚ) (k : ℚ)
        (Or.inr hp) (by push_cast; norm_num) (div_one _)]
      rw [infiniteTieTrack_extends ctx s k h1 (by omega) hp]
      exact ih (k + 1) _ (by omega) (by omega) hp

/-- The window state from which the single track of the C9 scenario is
walked: the fresh schedule, claimed up to `to = 1/5`, with the track's
instrument registered. -/
def tieWalkStart : Schedule :=
  { scheduledUpTo := 1/5
    instruments := [(0, [])]
    pendingNote :=
      { pending := false, instrument := none, note := 0, root := 0, at_ := 0, duration := 0
        velocity := none, volume := none, vibrato := none, vibratoFrequency := none }
    nextId := 0
    placements := [] }

theorem infiniteTie_walk_throws (ctx : SynthCtx) :
    scheduleTrackGo ctx 0 infiniteTieTrack 1 0 (1/5) 1 64 0 tieWalkStart =
      Except.error capMessage := by
  rw [show (64 : ℕ) = 63 + 1 from rfl]
  rw [scheduleTrackGo_step ctx 0 infiniteTieTrack 1 0 (1/5) 1 63 0 tieWalkStart 0 0
    (Or.inl (by norm_num)) (by norm_num) (by norm_num)]
  rw [infiniteTieTrack_opens ctx tieWalkStart (by rfl)]
  exact infiniteTie_loop_throws ctx 63 (0 + 1) _ (by norm_num) (by norm_num) (by rfl)

theorem runTracksAndSweep_error (ctx : SynthCtx) (tracks : List (Option Nat × Playable))
    (cycle from_ to_ : ℚ) (cyclesToCheck : Nat) (s : Schedule) (e : String)
    (h : scheduleTracks ctx tracks cycle from_ to_ cyclesToCheck s = Except.error e) :
    runTracksAndSweep ctx tracks cycle from_ to_ cyclesToCheck s = Except.error e := by
  unfold runTracksAndSweep
  rw [h]

theorem scheduleTracks_single_error (ctx : SynthCtx) (preset : Nat) (sequence : Playable)
    (cycle from_ to_ : ℚ) (cyclesToCheck : Nat) (s : Schedule) (e : String)
    (h : scheduleTrackGo ctx preset sequence cycle from_ to_ cyclesToCheck 64 0
      (getOrCreateInstrument s preset) = Except.error e) :
    scheduleTracks ctx [(some preset, sequence)] cycle from_ to_ cyclesToCheck s =
      Except.error e := by
  unfold scheduleTracks
  rw [h]

/-- C9: a track whose tie never resolves (note 5 followed by 64 alternate
periods of extend markers) makes `scheduleMusic` walk more than the hard
cap of 64 cycles; the invocation aborts by returning the descriptive
cycle-cap error, which propagates synchronously to the caller instead of
looping forever or being swallowed. -/
theorem c9_cycle_cap_throws (ctx : SynthCtx) :
    scheduleMusic ctx [(some 0, infiniteTieTrack)] 1 0 true false (1/5) createSchedule =
      Except.error capMessage := by
  unfold scheduleMusic
  rw [if_neg (by simp)]
  rw [if_pos (by norm_num [catchUp, createSchedule])]
  apply runTracksAndSweep_error
  apply scheduleTracks_single_error
  norm_num [getOrCreateInstrument, lookupInstrument, catchUp, createSchedule]
  exact infiniteTie_walk_throws ctx

/-! ## C10: a pending note persists across a cap-throwing invocation -/

theorem scheduleTrackGoSt_throw (ctx : SynthCtx) (preset : Nat) (sequence : Playable)
    (cycle from_ to_ : ℚ) (cyclesToCheck checkedCycles : Nat) (s : Schedule)
    (cycleStartedAt period : ℚ)
    (h : checkedCycles < cyclesToCheck ∨ s.pendingNote.pending = true)
    (hcs : ((⌊from_ / cycle⌋ + (checkedCycles : ℤ) : ℤ) : ℚ) * cycle = cycleStartedAt)
    (hper : cycleStartedAt / cycle = period) :
    scheduleTrackGoSt ctx preset sequence cycle from_ to_ cyclesToCheck 0 checkedCycles s =
      (schedulePart ctx s preset sequence cycleStartedAt cycle period from_ to_
        none none none none none none, some capMessage) := by
  conv_lhs => rw [scheduleTrackGoSt.eq_def]
  rw [if_pos h]
  dsimp only
  rw [hcs, hper]

theorem scheduleTrackGoSt_step (ctx : SynthCtx) (preset : Nat) (sequence : Playable)
    (cycle from_ to_ : ℚ) (cyclesToCheck b checkedCycles : Nat) (s : Schedule)
    (cycleStartedAt period : ℚ)
    (h : checkedCycles < cyclesToCheck ∨ s.pendingNote.pending = true)
    (hcs : ((⌊from_ / cycle⌋ + (checkedCycles : ℤ) : ℤ) : ℚ) * cycle = cycleStartedAt)
    (hper : cycleStartedAt / cycle = period) :
    scheduleTrackGoSt ctx preset sequence cycle from_ to_ cyclesToCheck (b + 1) checkedCycles
        s =
      scheduleTrackGoSt ctx preset sequence cycle from_ to_ cyclesToCheck b (checkedCycles + 1)
        (schedulePart ctx s preset sequence cycleStartedAt cycle period from_ to_
          none none none none none none) := by
  conv_lhs => rw [scheduleTrackGoSt.eq_def]
  rw [if_pos h]
  dsimp only
  rw [hcs, hper]

theorem scheduleTracksSt_single (ctx : SynthCtx) (preset : Nat) (sequence : Playable)
    (cycle from_ to_ : ℚ) (cyclesToCheck : Nat) (s s2 : Schedule) (e : String)
    (h : scheduleTrackGoSt ctx preset sequence cycle from_ to_ cyclesToCheck 64 0
      (getOrCreateInstrument s preset) = (s2, some e)) :
    scheduleTracksSt ctx [(some preset, sequence)] cycle from_ to_ cyclesToCheck s =
      (s2, some e) := by
  unfold scheduleTracksSt
  rw [h]

theorem runTracksAndSweepSt_error (ctx : SynthCtx) (tracks : List (Option Nat × Playable))
    (cycle from_ to_ : ℚ) (cyclesToCheck : Nat) (s s3 : Schedule) (e : String)
    (h : scheduleTracksSt ctx tracks cycle from_ to_ cyclesToCheck s = (s3, some e)) :
    runTracksAndSweepSt ctx tracks cycle from_ to_ cyclesToCheck s = (s3, some e) := by
  unfold runTracksAndSweepSt
  rw [h]

/-- The walked state of the never-resolving tie after its note has been
open for an accumulated duration `d`: the tied note 5 pending from time 0,
the window claimed up to `to = 1/5`, the track's instrument registered,
nothing dispatched. -/
def pendingTieState (d : ℚ) : Schedule :=
  { scheduledUpTo := 1/5
    instruments := [(0, [])]
    pendingNote :=
      { pending := true, instrument := some 0, note := 5 + Option.getD none 0
        root := Option.getD none 0, at_ := 0, duration := d
        velocity := none, volume := none, vibrato := none, vibratoFrequency := none }
    nextId := 0
    placements := [] }

/-- The per-context schedule state persisted by the cap-throwing C9
scenario invocation: `scheduledUpTo` advanced to the window end, the tied
note 5 still pending with the duration accumulated over the 65 walked
cycles, nothing dispatched. -/
def thrownSchedule : Schedule :=
  { scheduledUpTo := 1/5
    instruments := [(0, [])]
    pendingNote :=
      { pending := true, instrument := some 0, note := 5, root := 0, at_ := 0, duration := 65
        velocity := none, volume := none, vibrato := none, vibratoFrequency := none }
    nextId := 0
    placements := [] }

theorem infiniteTieSt_loop (ctx : SynthCtx) :
    ∀ (b k : ℕ), k = 64 - b → 1 ≤ k → ∀ d : ℚ,
      scheduleTrackGoSt ctx 0 infiniteTieTrack 1 0 (1/5) 1 b k (pendingTieState d) =
        (pendingTieState (d + ((b + 1 : ℕ) : ℚ)), some capMessage) := by
  intro b
  induction b with
  | zero =>
      intro k hk h1 d
      rw [scheduleTrackGoSt_throw ctx 0 infiniteTieTrack 1 0 (1/5) 1 k (pendingTieState d)
        (k : ℚ) (k : ℚ) (Or.inr rfl) (by push_cast; norm_num) (div_one _)]
      rw [infiniteTieTrack_extends ctx (pendingTieState d) k h1 (by omega) rfl]
      have harith : d + 1 = d + ((0 + 1 : ℕ) : ℚ) := by push_cast; ring
      exact congrArg (fun q => (pendingTieState q, some capMessage)) harith
  | succ b ih =>
      intro k hk h1 d
      rw [scheduleTrackGoSt_step ctx 0 infiniteTieTrack 1 0 (1/5) 1 b k (pendingTieState d)
        (k : ℚ) (k : ℚ) (Or.inr rfl) (by push_cast; norm_num) (div_one _)]
      rw [infiniteTieTrack_extends ctx (pendingTieState d) k h1 (by omega) rfl]
      have h := ih (k + 1) (by omega) (by omega) (d + 1)
      exact h.trans (by
        rw [show (d + 1) + ((b + 1 : ℕ) : ℚ) = d + ((b + 1 + 1 : ℕ) : ℚ) by push_cast; ring])

theorem infiniteTieSt_walk (ctx : SynthCtx) :
    scheduleTrackGoSt ctx 0 infiniteTieTrack 1 0 (1/5) 1 64 0 tieWalkStart =
      (thrownSchedule, some capMessage) := by
  rw [show (64 : ℕ) = 63 + 1 from rfl]
  rw [scheduleTrackGoSt_step ctx 0 infiniteTieTrack 1 0 (1/5) 1 63 0 tieWalkStart 0 0
    (Or.inl (by norm_num)) (by norm_num) (by norm_num)]
  rw [infiniteTieTrack_opens ctx tieWalkStart (by rfl)]
  have h := infiniteTieSt_loop ctx 63 (0 + 1) (by norm_num) (by norm_num) 1
  exact h.trans (by
    rw [show (1 : ℚ) + ((63 + 1 : ℕ) : ℚ) = 65 by push_cast; norm_num]
    rw [show pendingTieState 65 = thrownSchedule by
      norm_num [pendingTieState, thrownSchedule, Schedule.mk.injEq, PendingNote.mk.injEq]])

theorem c10_first_invocation :
    scheduleMusicSt simpleSynth [(some 0, infiniteTieTrack)] 1 0 true false (1/5)
        createSchedule = (thrownSchedule, some capMessage) := by
  unfold scheduleMusicSt
  rw [if_neg (by simp)]
  rw [if_pos (by norm_num [catchUp, createSchedule])]
  apply runTracksAndSweepSt_error
  apply scheduleTracksSt_single
  norm_num [getOrCreateInstrument, lookupInstrument, catchUp, createSchedule]
  exact infiniteTieSt_walk simpleSynth

theorem c10_second_invocation :
    scheduleMusic simpleSynth [(some 0, infiniteTieTrack)] 1 0 true false (1/5)
        thrownSchedule = Except.ok thrownSchedule := by
  unfold scheduleMusic
  rw [if_neg (by simp)]
  rw [if_neg (by norm_num [catchUp, thrownSchedule])]
  rw [show catchUp thrownSchedule 0 (1/5) = thrownSchedule by
    unfold catchUp
    rw [if_neg (by norm_num [thrownSchedule])]]

/-- C10 counterexample: a pending note does persist across scheduler
invocations, and `scheduleMusic` can return without throwing while the
flag is set. Running the never-resolving tie track from a fresh schedule
makes the first invocation throw at the cycle cap, and the per-context
schedule keeps every mutation made before the throw: `scheduledUpTo`
advanced to the window end and the tied note still pending with its
accumulated duration. A second invocation at the same clock time then
finds nothing left to schedule and returns `ok` with the pending flag
still true. -/
theorem c10_counterexample :
    scheduleMusicSt simpleSynth [(some 0, infiniteTieTrack)] 1 0 true false (1/5)
        createSchedule = (thrownSchedule, some capMessage) ∧
      thrownSchedule.pendingNote.pending = true ∧
      scheduleMusic simpleSynth [(some 0, infiniteTieTrack)] 1 0 true false (1/5)
          thrownSchedule = Except.ok thrownSchedule :=
  ⟨c10_first_invocation, rfl, c10_second_invocation⟩
